import Mathlib

/-!
# Watchtower: the update cycle of `main.go`

A shallow embedding of `pullImage`, `getContainerImageName`, `rebuildContainer`
and `checkUpdates` from `main.go`.

* The Docker client is a record of transition functions over an arbitrary
  daemon state `σ`, so that every answer may depend on everything that happened
  before. Every client call is appended to `World.calls`; every line written by
  `log.Printf` or `fmt.Printf` is appended to `World.out`.
* A Go `error` is represented by its message (`err.Error()`), `nil` by `none`.
* A function result is an `Outcome`: a normal return, a run-time panic, or
  `os.Exit`.
* The strings that the daemon sends as JSON (identifiers, names, image fields,
  tags, event fields) are Lean strings; `len` is the length in bytes of the
  UTF-8 encoding. Messages (errors, log lines, the name used in log lines) may
  contain a byte slice `s[:n]`, which need not end on a character, and are
  kept as bytes; so are the errors of the client and the lines of a pull
  stream, which are not decoded.
-/

namespace Watchtower

/-! ## Go string primitives -/

/-- The Go `strings.HasPrefix`. -/
def strings.HasPrefix (s pre : String) : Bool :=
  pre.data.isPrefixOf s.data

/-- The Go `strings.Count` for a one-character separator. -/
def strings.Count (s : String) (sep : Char) : Nat :=
  s.data.count sep

/-- Position of the first occurrence of `sep` in a list of characters. -/
def indexOfChar (sep : Char) : List Char → Option Nat
  | [] => none
  | c :: cs => if c = sep then some 0 else (indexOfChar sep cs).map (· + 1)

/-- The Go `strings.Index` for a one-character separator: the offset of its
first occurrence, or `-1`. The offset is counted in characters; it denotes the
same split point as the byte offset of the source. -/
def strings.Index (s : String) (sep : Char) : Int :=
  match indexOfChar sep s.data with
  | some i => (i : Int)
  | none => -1

/-- Whether `sub` occurs in `l` as a contiguous block. -/
def containsList (sub : List Char) : List Char → Bool
  | [] => sub.isPrefixOf []
  | c :: cs => sub.isPrefixOf (c :: cs) || containsList sub cs

/-- The Go `strings.Contains`. -/
def strings.Contains (s sub : String) : Bool :=
  containsList sub.data s.data

/-- The slice `s[:n]` for an offset `n` produced by `strings.Index`, which is
always within bounds. -/
def sliceTo (s : String) (n : Nat) : String :=
  ⟨s.data.take n⟩

/-- A Go string as its bytes; it need not be valid UTF-8. -/
abbrev Bytes := List UInt8

/-- The bytes of a string: its UTF-8 encoding. -/
def goBytes (s : String) : Bytes :=
  s.data.flatMap String.utf8EncodeChar

/-- The slice `s[:n]` for a constant `n`: the first `n` bytes of `s`; `none`
stands for the run-time panic "slice bounds out of range", raised when `s` has
fewer than `n` bytes. -/
def sliceFixed (s : String) (n : Nat) : Option Bytes :=
  if n ≤ s.utf8ByteSize then some ((goBytes s).take n) else none

/-- The constant `eraseEndLine`. -/
def eraseEndLine : String := "\u001B[K"

/-! ## Data model -/

/-- The fields of `dockerTypes.Container` read by the program. -/
structure Container where
  ID : String
  Names : List String
  Image : String
  ImageID : String
  State : String
  Labels : List (String × String)
  deriving DecidableEq, Repr

/-- The fields of `dockerTypes.ImageInspect` read by the program. -/
structure ImageInspect where
  ID : String
  RepoTags : List String
  deriving DecidableEq, Repr

/-- The fields of `dockerTypes.ContainerJSONBase` read by the program; the host
configuration `H` is a pointer that is handed on and never followed. -/
structure ContainerJSONBase (H : Type) where
  ID : String
  Name : String
  Image : String
  HostConfig : H
  deriving DecidableEq, Repr

/-- The field of `dockerTypes.NetworkSettings` read by the program; the
endpoint map `N` is handed on and never looked into. -/
structure NetworkSettings (N : Type) where
  Networks : N
  deriving DecidableEq, Repr

/-- The struct `dockerTypes.ContainerJSON`: the embedded pointer
`*ContainerJSONBase`, the pointer `Config`, which is handed on and never
followed, and the pointer `NetworkSettings`. A pointer that is followed is an
`Option`; `none` is `nil`, which a successful inspect leaves when the answer
omits that part. -/
structure ContainerJSON (C H N : Type) where
  ContainerJSONBase : Option (ContainerJSONBase H)
  Config : C
  NetworkSettings : Option (NetworkSettings N)
  deriving DecidableEq, Repr

/-- The options `dockerTypes.ImagePullOptions`; `PrivilegeFunc` is the constant
function returning `RegistryAuth`. -/
structure ImagePullOptions where
  All : Bool
  RegistryAuth : String
  deriving DecidableEq, Repr

/-- The options `dockerTypes.ContainerRemoveOptions`. -/
structure ContainerRemoveOptions where
  Force : Bool
  RemoveVolumes : Bool
  RemoveLinks : Bool
  deriving DecidableEq, Repr

/-- The body of a pull response as seen through `bufReader.ReadLine`: the
byte slices it yields, then either `io.EOF` (`none`) or a read error. -/
structure PullStream where
  lines : List Bytes
  readErr : Option Bytes
  deriving DecidableEq, Repr

/-- A value of type `interface{}` in a decoded JSON object: a Go string, or a
value of any other dynamic type. -/
inductive Value where
  | str (s : String)
  | other (raw : String)
  deriving DecidableEq, Repr

/-- A decoded `map[string]interface{}`. -/
abbrev JSONObject := List (String × Value)

/-- The panics of the program: a slice bound out of range, a `nil` pointer
followed, a failed type assertion, and `panic(err)`. -/
inductive Panic where
  | sliceBounds
  | nilPointer
  | interfaceConversion
  | error (err : Bytes)
  deriving DecidableEq, Repr

/-- How a function call ends. -/
inductive Outcome (α : Type) where
  | ret (a : α)
  | panic (p : Panic)
  | exit (code : Nat)
  deriving DecidableEq, Repr

/-- The calls made on the Docker client. -/
inductive Call (C H N : Type) where
  | ContainerList
  | ImagePull (image : String) (options : ImagePullOptions)
  | ImageInspectWithRaw (image : String)
  | ContainerInspect (containerID : String)
  | ContainerRemove (containerID : String) (options : ContainerRemoveOptions)
  | ContainerCreate (config : C) (hostConfig : H) (endpointsConfig : N) (name : String)
  | ContainerStart (containerID : String)
  deriving DecidableEq, Repr

/-- The Docker client: each operation answers from the daemon state and moves
it. -/
structure Docker (σ C H N : Type) where
  ContainerList : σ → Except Bytes (List Container) × σ
  ImagePull : String → ImagePullOptions → σ → Except Bytes PullStream × σ
  ImageInspectWithRaw : String → σ → Except Bytes ImageInspect × σ
  ContainerInspect : String → σ → Except Bytes (ContainerJSON C H N) × σ
  ContainerRemove : String → ContainerRemoveOptions → σ → Option Bytes × σ
  ContainerCreate : C → H → N → String → σ → Except Bytes String × σ
  ContainerStart : String → σ → Option Bytes × σ

/-- The daemon state together with what the process has done so far: the
client calls in order, and the message of every `log.Printf` and `fmt.Printf`
call, formatted with its arguments. The time stamp and the final newline that
the logger adds are not recorded, and an error logged as a format string is
recorded as it is. -/
structure World (σ C H N : Type) where
  st : σ
  calls : List (Call C H N)
  out : List Bytes
  deriving DecidableEq, Repr

/-- The struct `watchtower`. -/
structure watchtower (σ C H N : Type) where
  docker : Docker σ C H N
  registryAuth : List (String × String)

variable {σ C H N : Type}

/-- A process that has not called the client yet. -/
def World.init (s : σ) : World σ C H N :=
  { st := s, calls := [], out := [] }

/-- One line of `log.Printf` or `fmt.Printf` output. -/
def World.print (w : World σ C H N) (msg : Bytes) : World σ C H N :=
  { w with out := w.out ++ [msg] }

/-- Perform a client call: record it and move the daemon state. -/
def World.call {α : Type} (w : World σ C H N) (c : Call C H N) (f : σ → α × σ) :
    α × World σ C H N :=
  ((f w.st).1, { w with st := (f w.st).2, calls := w.calls ++ [c] })

/-- The client call `ContainerList`. -/
def World.containerList (w : World σ C H N) (d : Docker σ C H N) :
    Except Bytes (List Container) × World σ C H N :=
  w.call Call.ContainerList d.ContainerList

/-- The client call `ImagePull`. -/
def World.imagePull (w : World σ C H N) (d : Docker σ C H N) (image : String)
    (options : ImagePullOptions) : Except Bytes PullStream × World σ C H N :=
  w.call (Call.ImagePull image options) (d.ImagePull image options)

/-- The client call `ImageInspectWithRaw`. -/
def World.imageInspect (w : World σ C H N) (d : Docker σ C H N) (image : String) :
    Except Bytes ImageInspect × World σ C H N :=
  w.call (Call.ImageInspectWithRaw image) (d.ImageInspectWithRaw image)

/-- The client call `ContainerInspect`. -/
def World.containerInspect (w : World σ C H N) (d : Docker σ C H N) (containerID : String) :
    Except Bytes (ContainerJSON C H N) × World σ C H N :=
  w.call (Call.ContainerInspect containerID) (d.ContainerInspect containerID)

/-- The client call `ContainerRemove`. -/
def World.containerRemove (w : World σ C H N) (d : Docker σ C H N) (containerID : String)
    (options : ContainerRemoveOptions) : Option Bytes × World σ C H N :=
  w.call (Call.ContainerRemove containerID options) (d.ContainerRemove containerID options)

/-- The client call `ContainerCreate`. -/
def World.containerCreate (w : World σ C H N) (d : Docker σ C H N) (config : C)
    (hostConfig : H) (endpointsConfig : N) (name : String) :
    Except Bytes String × World σ C H N :=
  w.call (Call.ContainerCreate config hostConfig endpointsConfig name)
    (d.ContainerCreate config hostConfig endpointsConfig name)

/-- The client call `ContainerStart`. -/
def World.containerStart (w : World σ C H N) (d : Docker σ C H N) (containerID : String) :
    Option Bytes × World σ C H N :=
  w.call (Call.ContainerStart containerID) (d.ContainerStart containerID)

/-! ## `pullImage` (main.go, lines 72-110) -/

/-- The body of the `for` loop of `pullImage` applied to a decoded event:
`none` when the loop goes on to the next line, otherwise how `pullImage` ends.
The type assertions `.(string)` panic on a value that is not a string, and on
the `nil` obtained from a key that is absent. -/
def pullEvent (image : String) (data : JSONObject) (w : World σ C H N) :
    Option (Outcome (Option Bytes)) × World σ C H N :=
  match data.lookup "error" with
  | some (Value.str msg) => (some (Outcome.ret (some (goBytes msg))), w)
  | some (Value.other _) => (some (Outcome.panic Panic.interfaceConversion), w)
  | none =>
    match data.lookup "progress" with
    | some (Value.str progress) =>
      (none, w.print (goBytes (image ++ " " ++ progress ++ eraseEndLine ++ "\r")))
    | some (Value.other _) => (some (Outcome.panic Panic.interfaceConversion), w)
    | none =>
      match data.lookup "status" with
      | some (Value.str status) =>
        if !strings.Contains status "uses outdated schema1 manifest format" then
          (none, w.print (goBytes (image ++ ": " ++ status ++ eraseEndLine ++ "\r")))
        else (none, w)
      | _ => (some (Outcome.panic Panic.interfaceConversion), w)

/-- The `for` loop of `pullImage` (lines 87-109) over the lines that
`ReadLine` yields; `unmarshal` is `json.Unmarshal` into a
`map[string]interface{}`. -/
def pullLoop (unmarshal : Bytes → Except Bytes JSONObject) (image : String)
    (readErr : Option Bytes) :
    List Bytes → World σ C H N → Outcome (Option Bytes) × World σ C H N
  | [], w =>
    match readErr with
    | none => (Outcome.ret none, w.print (goBytes ("\r" ++ eraseEndLine)))
    | some err => (Outcome.ret (some err), w)
  | line :: rest, w =>
    match unmarshal line with
    | Except.error err => (Outcome.ret (some err), w)
    | Except.ok data =>
      match pullEvent image data w with
      | (some o, w1) => (o, w1)
      | (none, w1) => pullLoop unmarshal image readErr rest w1

/-- Lines 73-80 of `pullImage`: the log line and the pull request. -/
def pullRequest (wt : watchtower σ C H N) (auth image : String) (w : World σ C H N) :
    Except Bytes PullStream × World σ C H N :=
  (w.print (goBytes ("Checking image: " ++ image ++ "\n"))).imagePull wt.docker image
    { All := true, RegistryAuth := auth }

/-- The method `pullImage`. -/
def pullImage (wt : watchtower σ C H N) (unmarshal : Bytes → Except Bytes JSONObject)
    (auth image : String) (w : World σ C H N) :
    Outcome (Option Bytes) × World σ C H N :=
  match pullRequest wt auth image w with
  | (Except.error err, w1) =>
    (Outcome.ret (some err),
      w1.print (goBytes ("Failed to fetch " ++ image ++ ": ") ++ err ++ goBytes "\n"))
  | (Except.ok reader, w1) => pullLoop unmarshal image reader.readErr reader.lines w1

/-! ## `getContainerImageName` (main.go, lines 112-148) -/

/-- The body of the loop over `imageDetails.RepoTags` (lines 124-129): the
value assigned to `image` for one tag. -/
def tagImage (tag : String) : String :=
  let imageEnd := strings.Index tag ':'
  if imageEnd > -1 then sliceTo tag imageEnd.toNat else tag

/-- Lines 132-147 of `getContainerImageName`: the second digest test and the
`switch` on the number of slashes. -/
def resolveImage (name : Bytes) (image registry : String) : String × String × Option Bytes :=
  if strings.HasPrefix image "sha256:" then
    (image, registry, some (goBytes "Failed to resolve image for container: " ++ name))
  else
    match strings.Count image '/' with
    | 0 => ("docker.io/library/" ++ image, registry, none)
    | 1 => ("docker.io/" ++ image, registry, none)
    | 2 => (image, sliceTo image (strings.Index image '/').toNat, none)
    | _ => (image, registry,
        some (goBytes ("Unexpected number of slashes in: " ++ image ++ "\n")))

/-- The method `getContainerImageName`; the result is the triple
`(image, registry, err)`. -/
def getContainerImageName (wt : watchtower σ C H N) (name : Bytes) (container : Container)
    (w : World σ C H N) : Outcome (String × String × Option Bytes) × World σ C H N :=
  let image := container.Image
  let registry := "hub.docker.com"
  if strings.HasPrefix image "sha256:" then
    match w.imageInspect wt.docker image with
    | (Except.error err, w1) =>
      match sliceFixed image (7 + 6) with
      | none => (Outcome.panic Panic.sliceBounds, w1)
      | some short =>
        (Outcome.ret (image, registry,
          some (goBytes "Failed to inspect image " ++ short ++ goBytes "\n\t" ++ err)), w1)
    | (Except.ok imageDetails, w1) =>
      (Outcome.ret (resolveImage name
        (imageDetails.RepoTags.foldl (fun _ tag => tagImage tag) image) registry), w1)
  else (Outcome.ret (resolveImage name image registry), w)

/-! ## `rebuildContainer` (main.go, lines 150-187) -/

/-- The method `rebuildContainer`. The selectors `container.ID`,
`container.HostConfig`, `container.Name` and `container.Image` follow the
embedded pointer `*ContainerJSONBase`, first at line 158 before the remove;
`container.NetworkSettings.Networks` follows the pointer `NetworkSettings` at
line 172, after the remove and before the create. Following `nil` panics. -/
def rebuildContainer (wt : watchtower σ C H N) (containerID : String) (w : World σ C H N) :
    Outcome (Option Bytes) × World σ C H N :=
  match w.containerInspect wt.docker containerID with
  | (Except.error err, w1) => (Outcome.ret (some err), w1)
  | (Except.ok container, w1) =>
    match container.ContainerJSONBase with
    | none => (Outcome.panic Panic.nilPointer, w1)
    | some base =>
      match w1.containerRemove wt.docker base.ID
          { Force := true, RemoveVolumes := true, RemoveLinks := false } with
      | (some err, w2) =>
        match sliceFixed containerID 6 with
        | none => (Outcome.panic Panic.sliceBounds, w2)
        | some short =>
          (Outcome.ret (some (goBytes "Failed to remove " ++ short ++ goBytes "\n\t" ++ err)), w2)
      | (none, w2) =>
        match container.NetworkSettings with
        | none => (Outcome.panic Panic.nilPointer, w2)
        | some networkSettings =>
          match w2.containerCreate wt.docker container.Config base.HostConfig
              networkSettings.Networks base.Name with
          | (Except.error err, w3) => (Outcome.ret (some err), w3)
          | (Except.ok resID, w3) =>
            match w3.containerStart wt.docker resID with
            | (some err, w4) => (Outcome.ret (some err), w4)
            | (none, w4) =>
              match sliceFixed containerID 6, sliceFixed resID 6 with
              | some short, some resShort =>
                (Outcome.ret none,
                  w4.print (goBytes ("Restarted " ++ base.Image ++ " container: ") ++ short
                    ++ goBytes " as " ++ resShort ++ goBytes "\n"))
              | _, _ => (Outcome.panic Panic.sliceBounds, w4)

/-! ## `checkUpdates` (main.go, lines 189-262) -/

/-- The assignment `imagesUpdated[image] = value`. -/
def mapSet (imagesUpdated : List (String × Bool)) (image : String) (value : Bool) :
    List (String × Bool) :=
  (image, value) :: imagesUpdated

/-- The statement `if *exitOnError { os.Exit(1) }; continue`. -/
def bailOrContinue (exitOnError : Bool) (imagesUpdated : List (String × Bool))
    (w : World σ C H N) : Outcome (List (String × Bool)) × World σ C H N :=
  if exitOnError then (Outcome.exit 1, w) else (Outcome.ret imagesUpdated, w)

/-- Whether the condition of line 202 holds: the container carries no label
`com.docker.compose.config-hash` and its state is `running`. -/
def eligible (container : Container) : Bool :=
  let withCompose := (container.Labels.lookup "com.docker.compose.config-hash").isSome
  !withCompose && container.State == "running"

/-- The variable `name` of lines 203-206: `none` is the panic of
`container.ID[:6]`. -/
def containerName (container : Container) : Option Bytes :=
  match sliceFixed container.ID 6 with
  | none => none
  | some short =>
    match container.Names with
    | [] => some short
    | first :: _ => some (goBytes first)

/-- Lines 218-259 of `checkUpdates`: what is done for a container whose image
resolved to `image` at `registry`. -/
def checkImage (wt : watchtower σ C H N) (unmarshal : Bytes → Except Bytes JSONObject)
    (exitOnError : Bool) (container : Container) (name : Bytes) (image registry : String)
    (imagesUpdated : List (String × Bool)) (w : World σ C H N) :
    Outcome (List (String × Bool)) × World σ C H N :=
  let auth := (wt.registryAuth.lookup registry).getD ""
  match imagesUpdated.lookup image with
  | some wasUpdated =>
    if wasUpdated then
      (Outcome.ret imagesUpdated,
        w.print (goBytes ("Restarting container: " ++ container.ID ++ " (" ++ image ++ ")\n")))
    else (Outcome.ret imagesUpdated, w)
  | none =>
    match pullImage wt unmarshal auth image w with
    | (Outcome.panic p, w1) => (Outcome.panic p, w1)
    | (Outcome.exit code, w1) => (Outcome.exit code, w1)
    | (Outcome.ret (some err), w1) =>
      bailOrContinue exitOnError (mapSet imagesUpdated image false)
        (w1.print (goBytes ("Failed to fetch " ++ image ++ "\n") ++ err ++ goBytes "\n"))
    | (Outcome.ret none, w1) =>
      match w1.imageInspect wt.docker image with
      | (Except.error err, w2) =>
        bailOrContinue exitOnError (mapSet imagesUpdated image false)
          (w2.print (goBytes ("Failed to inspect " ++ image ++ "\n") ++ err ++ goBytes "\n"))
      | (Except.ok imageDetails, w2) =>
        if imageDetails.ID != container.ImageID then
          match rebuildContainer wt container.ID w2 with
          | (Outcome.panic p, w3) => (Outcome.panic p, w3)
          | (Outcome.exit code, w3) => (Outcome.exit code, w3)
          | (Outcome.ret (some err), w3) =>
            bailOrContinue exitOnError (mapSet imagesUpdated image true)
              (w3.print (goBytes "Failed to update " ++ name ++ goBytes "\n\t" ++ err
                ++ goBytes "\n"))
          | (Outcome.ret none, w3) => (Outcome.ret (mapSet imagesUpdated image true), w3)
        else
          (Outcome.ret (mapSet imagesUpdated image false),
            w2.print (name ++ goBytes " is up-to-date\n"))

/-- The body of the loop of `checkUpdates` (lines 200-260) for one container:
the map `imagesUpdated` afterwards, unless the process ends here. -/
def checkContainer (wt : watchtower σ C H N) (unmarshal : Bytes → Except Bytes JSONObject)
    (exitOnError : Bool) (container : Container) (imagesUpdated : List (String × Bool))
    (w : World σ C H N) : Outcome (List (String × Bool)) × World σ C H N :=
  if eligible container then
    match containerName container with
    | none => (Outcome.panic Panic.sliceBounds, w)
    | some name =>
      match getContainerImageName wt name container w with
      | (Outcome.panic p, w1) => (Outcome.panic p, w1)
      | (Outcome.exit code, w1) => (Outcome.exit code, w1)
      | (Outcome.ret (image, _, some err), w1) =>
        bailOrContinue exitOnError (mapSet imagesUpdated image false) (w1.print err)
      | (Outcome.ret (image, registry, none), w1) =>
        checkImage wt unmarshal exitOnError container name image registry imagesUpdated w1
  else (Outcome.ret imagesUpdated, w)

/-- The loop of `checkUpdates` over the listed containers, in order. -/
def checkLoop (wt : watchtower σ C H N) (unmarshal : Bytes → Except Bytes JSONObject)
    (exitOnError : Bool) :
    List Container → List (String × Bool) → World σ C H N →
      Outcome (List (String × Bool)) × World σ C H N
  | [], imagesUpdated, w => (Outcome.ret imagesUpdated, w)
  | container :: rest, imagesUpdated, w =>
    match checkContainer wt unmarshal exitOnError container imagesUpdated w with
    | (Outcome.ret imagesUpdated1, w1) => checkLoop wt unmarshal exitOnError rest imagesUpdated1 w1
    | (o, w1) => (o, w1)

/-- The start of `checkUpdates` (lines 190-195): the log line and the
container listing. -/
def listContainers (wt : watchtower σ C H N) (w : World σ C H N) :
    Except Bytes (List Container) × World σ C H N :=
  (w.print (goBytes "Checking for updates ...")).containerList wt.docker

/-- The method `checkUpdates`; the value returned is the map `imagesUpdated`
at the end of the cycle. -/
def checkUpdates (wt : watchtower σ C H N) (unmarshal : Bytes → Except Bytes JSONObject)
    (exitOnError : Bool) (w : World σ C H N) :
    Outcome (List (String × Bool)) × World σ C H N :=
  match listContainers wt w with
  | (Except.error err, w1) => (Outcome.panic (Panic.error err), w1)
  | (Except.ok containers, w1) => checkLoop wt unmarshal exitOnError containers [] w1

/-! ## Notions used to state the properties -/

/-- The text of `s` before the first `sep` (all of `s` when there is none). -/
def textBefore (sep : Char) (s : String) : String :=
  ⟨s.data.takeWhile (fun c => decide (c ≠ sep))⟩

/-- Whether a client call is a pull of `image`. -/
def Call.isPull (image : String) : Call C H N → Bool
  | Call.ImagePull i _ => i == image
  | _ => false

/-- The number of pulls of `image` among the calls. -/
def pulls (image : String) (calls : List (Call C H N)) : Nat :=
  calls.countP (Call.isPull image)

/-- Whether a client call is one of the calls of a recreation: container
inspect, remove, create or start. -/
def Call.isRecreate : Call C H N → Bool
  | Call.ContainerInspect _ => true
  | Call.ContainerRemove _ _ => true
  | Call.ContainerCreate _ _ _ _ => true
  | Call.ContainerStart _ => true
  | _ => false

/-- The shape of every reference that `getContainerImageName` returns without
an error: two slashes and no digest prefix. -/
def Canonical (image : String) : Prop :=
  strings.Count image '/' = 2 ∧ strings.HasPrefix image "sha256:" = false

/-- The loop invariant of `checkUpdates` relating the map `imagesUpdated` to
the pulls made so far. -/
structure CacheInv (imagesUpdated : List (String × Bool)) (calls : List (Call C H N)) : Prop where
  atMost : ∀ image, pulls image calls ≤ 1
  cached : ∀ image, pulls image calls = 1 → imagesUpdated.lookup image ≠ none
  pulled : ∀ image, Canonical image → imagesUpdated.lookup image ≠ none → pulls image calls = 1

/-- An event that lets the loop of `pullImage` go on: it has no `error` field,
and either its `progress` field is a string, or it has no `progress` field and
its `status` field is a string. -/
def isProgressEvent (data : JSONObject) : Bool :=
  match data.lookup "error", data.lookup "progress", data.lookup "status" with
  | none, some (Value.str _), _ => true
  | none, none, some (Value.str _) => true
  | _, _, _ => false

/-- The tag-qualified name `tag` without its trailing tag suffix, the part
after the last `:`, as the specification words it. -/
def stripTagSuffix (tag : String) : String :=
  if ':' ∈ tag.data then
    ⟨((tag.data.reverse.dropWhile (fun c => decide (c ≠ ':'))).drop 1).reverse⟩
  else tag

/-- The name the specification gives to a digest-form image: the first tag of
the list, without its trailing tag suffix. -/
def firstTagName (tags : List String) : Option String :=
  tags.head?.map stripTagSuffix

/-! ## Examples -/

/-- The answer of a container inspect that describes the container in full. -/
def fullDescription (containerID : String) : ContainerJSON String String String :=
  { ContainerJSONBase :=
      some { ID := containerID, Name := "/web", Image := "nginx", HostConfig := "host" },
    Config := "cfg",
    NetworkSettings := some { Networks := "nets" } }

/-- A daemon for the examples: it lists `containers`, answers pulls and image
inspections from `pull` and `image`, answers a container inspect with
`describe`, and lets the step numbered `failAt` of a recreation (1 inspect,
2 remove, 3 create, 4 start) fail with `boom`; a create that succeeds returns
`newID`. The daemon state counts the calls. -/
structure Scenario where
  containers : List Container
  pull : String → Except Bytes PullStream
  image : String → Except Bytes ImageInspect
  describe : String → ContainerJSON String String String
  failAt : Nat
  newID : String

/-- The client of a scenario. -/
def Scenario.docker (sc : Scenario) : Docker Nat String String String where
  ContainerList s := (Except.ok sc.containers, s + 1)
  ImagePull image _ s := (sc.pull image, s + 1)
  ImageInspectWithRaw image s := (sc.image image, s + 1)
  ContainerInspect containerID s :=
    (if sc.failAt = 1 then Except.error (goBytes "boom")
      else Except.ok (sc.describe containerID), s + 1)
  ContainerRemove _ _ s := (if sc.failAt = 2 then some (goBytes "boom") else none, s + 1)
  ContainerCreate _ _ _ _ s :=
    (if sc.failAt = 3 then Except.error (goBytes "boom") else Except.ok sc.newID, s + 1)
  ContainerStart _ s := (if sc.failAt = 4 then some (goBytes "boom") else none, s + 1)

/-- The `watchtower` value of a scenario, without registry credentials. -/
def Scenario.wt (sc : Scenario) : watchtower Nat String String String :=
  { docker := sc.docker, registryAuth := [] }

/-- A running container `web` started from the image with ID `sha256:old`. -/
def runningContainer (containerID image : String) : Container :=
  { ID := containerID, Names := ["/web"], Image := image, ImageID := "sha256:old",
    State := "running", Labels := [] }

/-- A decoder for the examples; it knows four lines. -/
def exampleUnmarshal (line : Bytes) : Except Bytes JSONObject :=
  if line = goBytes "\x7b\"status\":\"Pulling from library/nginx\",\"id\":\"latest\"\x7d" then
    Except.ok [("status", Value.str "Pulling from library/nginx"), ("id", Value.str "latest")]
  else if line = goBytes "\x7b\"error\":\"manifest unknown\"\x7d" then
    Except.ok [("error", Value.str "manifest unknown")]
  else if line = goBytes "\x7b\"id\":\"latest\"\x7d" then
    Except.ok [("id", Value.str "latest")]
  else if line = goBytes "\x7b\"error\":404\x7d" then
    Except.ok [("error", Value.other "404")]
  else Except.error (goBytes "invalid character")

/-- Two running containers of the image `nginx`; the pulled image has a new
ID and every step of a recreation succeeds. -/
def twoOfNginx : Scenario :=
  { containers := [runningContainer "aaaaaaaaaaaa" "nginx", runningContainer "bbbbbbbbbbbb" "nginx"],
    pull := fun _ => Except.ok { lines := [], readErr := none },
    image := fun _ => Except.ok { ID := "sha256:new", RepoTags := [] },
    describe := fullDescription,
    failAt := 0,
    newID := "cccccccccccc" }

/-- The scenario `twoOfNginx` with step `n` of every recreation failing. -/
def recreateFails (n : Nat) : Scenario :=
  { twoOfNginx with failAt := n }

/-- The scenario `twoOfNginx` with inspect answers that omit the network
settings. -/
def noNetworkSettings : Scenario :=
  { twoOfNginx with
    describe := fun containerID => { fullDescription containerID with NetworkSettings := none } }

/-- The scenario `twoOfNginx` with inspect answers that omit the base
description. -/
def noBase : Scenario :=
  { twoOfNginx with
    describe := fun containerID => { fullDescription containerID with ContainerJSONBase := none } }

/-- The scenario `twoOfNginx` with creates that return the ID `abc`. -/
def shortNewID : Scenario :=
  { twoOfNginx with newID := "abc" }

/-- One running container of the image `redis`; the pulled image has the ID
the container was started from. -/
def redisUpToDate : Scenario :=
  { containers := [runningContainer "dddddddddddd" "redis"],
    pull := fun _ => Except.ok
      { lines := [goBytes "\x7b\"status\":\"Pulling from library/nginx\",\"id\":\"latest\"\x7d"],
        readErr := none },
    image := fun _ => Except.ok { ID := "sha256:old", RepoTags := ["redis:latest"] },
    describe := fullDescription,
    failAt := 0,
    newID := "eeeeeeeeeeee" }

/-- A running container managed by compose. -/
def composeContainer : Container :=
  { ID := "ffffffffffff", Names := ["/db"], Image := "postgres", ImageID := "sha256:old",
    State := "running", Labels := [("com.docker.compose.config-hash", "0123")] }

/-- The options of the remove issued by `rebuildContainer`. -/
def removeOptions : ContainerRemoveOptions :=
  { Force := true, RemoveVolumes := true, RemoveLinks := false }

/-- An image field in digest form. -/
def digestImage : String := "sha256:0123456789abcdef"

/-- A daemon that knows the tags `a:1` and `b:2` for every image. -/
def twoTags : Scenario :=
  { twoOfNginx with
    containers := [runningContainer "aaaaaaaaaaaa" digestImage],
    image := fun _ => Except.ok { ID := "sha256:new", RepoTags := ["a:1", "b:2"] } }

/-- A daemon that knows no image. -/
def noImage : Scenario :=
  { twoOfNginx with image := fun _ => Except.error (goBytes "No such image") }

/-- A daemon whose pull of `docker.io/library/quiet` yields an event without
`error`, `progress` and `status`, and whose other pulls yield an event whose
`error` is a number. -/
def oddEvents : Scenario :=
  { twoOfNginx with
    pull := fun image =>
      if image = "docker.io/library/quiet" then
        Except.ok { lines := [goBytes "\x7b\"id\":\"latest\"\x7d"], readErr := none }
      else Except.ok { lines := [goBytes "\x7b\"error\":404\x7d"], readErr := none } }

/-- The daemon `oddEvents` listing a container of the image `quiet` before two
containers of the image `nginx`. -/
def quietFirst : Scenario :=
  { oddEvents with
    containers := [runningContainer "eeeeeeeeeeee" "quiet",
      runningContainer "aaaaaaaaaaaa" "nginx", runningContainer "bbbbbbbbbbbb" "nginx"] }

/-- A daemon whose pulls report a status and then an error. -/
def failingPull : Scenario :=
  { twoOfNginx with
    pull := fun _ => Except.ok
      { lines := [goBytes "\x7b\"status\":\"Pulling from library/nginx\",\"id\":\"latest\"\x7d",
                  goBytes "\x7b\"error\":\"manifest unknown\"\x7d", goBytes "not json"],
        readErr := none } }

/-! ## Facts about the string primitives -/

theorem indexOfChar_none (sep : Char) (l : List Char) :
    indexOfChar sep l = none ↔ sep ∉ l := by
  induction l with
  | nil => simp [indexOfChar]
  | cons c cs ih =>
    by_cases h : c = sep
    · simp [indexOfChar, h]
    · have h2 : ¬ sep = c := fun e => h e.symm
      simp [indexOfChar, h, h2, ih]

theorem indexOfChar_take (sep : Char) (l : List Char) (i : Nat)
    (h : indexOfChar sep l = some i) : l.take i = l.takeWhile (fun c => decide (c ≠ sep)) := by
  induction l generalizing i with
  | nil => simp [indexOfChar] at h
  | cons c cs ih =>
    by_cases hc : c = sep
    · simp [indexOfChar, hc] at h
      subst h
      simp [List.takeWhile, hc]
    · simp only [indexOfChar, hc, if_false, Option.map_eq_some'] at h
      obtain ⟨j, hj, rfl⟩ := h
      simp [List.takeWhile, hc, ih j hj]

theorem takeWhile_of_not_mem (sep : Char) (l : List Char) (h : sep ∉ l) :
    l.takeWhile (fun c => decide (c ≠ sep)) = l := by
  induction l with
  | nil => rfl
  | cons c cs ih =>
    simp only [List.mem_cons, not_or] at h
    have hc : c ≠ sep := fun e => h.1 e.symm
    rw [List.takeWhile_cons_of_pos (by simpa using hc), ih h.2]

theorem sliceTo_index (s : String) (sep : Char) (h : sep ∈ s.data) :
    sliceTo s (strings.Index s sep).toNat = textBefore sep s := by
  unfold sliceTo strings.Index textBefore
  cases hi : indexOfChar sep s.data with
  | none => exact absurd h ((indexOfChar_none sep s.data).1 hi)
  | some i => simp [indexOfChar_take sep s.data i hi]

theorem tagImage_eq (tag : String) : tagImage tag = textBefore ':' tag := by
  unfold tagImage
  by_cases h : ':' ∈ tag.data
  · have hi : strings.Index tag ':' > -1 := by
      unfold strings.Index
      cases hi : indexOfChar ':' tag.data with
      | none => exact absurd h ((indexOfChar_none _ _).1 hi)
      | some i => simp; omega
    simp only [hi, if_true]
    exact sliceTo_index tag ':' h
  · have hi : ¬ strings.Index tag ':' > -1 := by
      unfold strings.Index
      rw [(indexOfChar_none _ _).2 h]
      simp
    simp only [hi, if_false]
    unfold textBefore
    rw [takeWhile_of_not_mem _ _ h]

theorem count_pos_mem (s : String) (sep : Char) (h : 0 < strings.Count s sep) : sep ∈ s.data := by
  unfold strings.Count at h
  exact List.count_pos_iff.1 h

theorem count_append (a b : String) (sep : Char) :
    strings.Count (a ++ b) sep = strings.Count a sep + strings.Count b sep := by
  unfold strings.Count
  simp [String.data_append, List.count_append]

theorem hasPrefix_textBefore_colon (tag : String) :
    strings.HasPrefix (textBefore ':' tag) "sha256:" = false := by
  cases hp : strings.HasPrefix (textBefore ':' tag) "sha256:" with
  | false => rfl
  | true =>
    exfalso
    unfold strings.HasPrefix textBefore at hp
    have hpre := List.isPrefixOf_iff_prefix.1 hp
    have hmem : ':' ∈ tag.data.takeWhile (fun c => decide (c ≠ ':')) :=
      hpre.subset (by decide)
    have := List.mem_takeWhile_imp hmem
    simp at this

theorem hasPrefix_library (image : String) :
    strings.HasPrefix ("docker.io/library/" ++ image) "sha256:" = false := by
  unfold strings.HasPrefix
  rw [String.data_append]
  rfl

theorem hasPrefix_dockerio (image : String) :
    strings.HasPrefix ("docker.io/" ++ image) "sha256:" = false := by
  unfold strings.HasPrefix
  rw [String.data_append]
  rfl

theorem count_library (image : String) :
    strings.Count ("docker.io/library/" ++ image) '/' = 2 + strings.Count image '/' := by
  rw [count_append]
  rfl

theorem count_dockerio (image : String) :
    strings.Count ("docker.io/" ++ image) '/' = 1 + strings.Count image '/' := by
  rw [count_append]
  rfl

/-! ## Which calls each function makes -/

@[simp]
theorem print_calls (w : World σ C H N) (msg : Bytes) : (w.print msg).calls = w.calls := rfl

theorem imagePull_calls (d : Docker σ C H N) (image : String) (options : ImagePullOptions)
    (w w1 : World σ C H N) (r : Except Bytes PullStream)
    (h : w.imagePull d image options = (r, w1)) :
    w1.calls = w.calls ++ [Call.ImagePull image options] := by
  cases h; rfl

theorem imageInspect_calls (d : Docker σ C H N) (image : String)
    (w w1 : World σ C H N) (r : Except Bytes ImageInspect)
    (h : w.imageInspect d image = (r, w1)) :
    w1.calls = w.calls ++ [Call.ImageInspectWithRaw image] := by
  cases h; rfl

theorem containerInspect_calls (d : Docker σ C H N) (containerID : String)
    (w w1 : World σ C H N) (r : Except Bytes (ContainerJSON C H N))
    (h : w.containerInspect d containerID = (r, w1)) :
    w1.calls = w.calls ++ [Call.ContainerInspect containerID] := by
  cases h; rfl

theorem containerRemove_calls (d : Docker σ C H N) (containerID : String)
    (options : ContainerRemoveOptions) (w w1 : World σ C H N) (r : Option Bytes)
    (h : w.containerRemove d containerID options = (r, w1)) :
    w1.calls = w.calls ++ [Call.ContainerRemove containerID options] := by
  cases h; rfl

theorem containerCreate_calls (d : Docker σ C H N) (config : C) (hostConfig : H)
    (endpointsConfig : N) (name : String) (w w1 : World σ C H N) (r : Except Bytes String)
    (h : w.containerCreate d config hostConfig endpointsConfig name = (r, w1)) :
    w1.calls = w.calls ++ [Call.ContainerCreate config hostConfig endpointsConfig name] := by
  cases h; rfl

theorem containerStart_calls (d : Docker σ C H N) (containerID : String)
    (w w1 : World σ C H N) (r : Option Bytes)
    (h : w.containerStart d containerID = (r, w1)) :
    w1.calls = w.calls ++ [Call.ContainerStart containerID] := by
  cases h; rfl

theorem pulls_append (image : String) (a b : List (Call C H N)) :
    pulls image (a ++ b) = pulls image a + pulls image b := by
  simp [pulls, List.countP_append]

theorem pullEvent_calls (image : String) (data : JSONObject) (w w1 : World σ C H N)
    (o : Option (Outcome (Option Bytes))) (h : pullEvent image data w = (o, w1)) :
    w1.calls = w.calls := by
  unfold pullEvent at h
  repeat' split at h
  all_goals (cases h; rfl)

theorem pullLoop_calls (unmarshal : Bytes → Except Bytes JSONObject) (image : String)
    (readErr : Option Bytes) (lines : List Bytes) (w w1 : World σ C H N)
    (o : Outcome (Option Bytes)) (h : pullLoop unmarshal image readErr lines w = (o, w1)) :
    w1.calls = w.calls := by
  induction lines generalizing w with
  | nil =>
    unfold pullLoop at h
    split at h <;> (cases h; rfl)
  | cons line rest ih =>
    unfold pullLoop at h
    split at h
    · cases h; rfl
    · split at h
      · rename_i he
        cases h
        exact pullEvent_calls _ _ _ _ _ he
      · rename_i he
        rw [ih _ h]
        exact pullEvent_calls _ _ _ _ _ he

theorem pullImage_calls (wt : watchtower σ C H N) (unmarshal : Bytes → Except Bytes JSONObject)
    (auth image : String) (w w1 : World σ C H N) (o : Outcome (Option Bytes))
    (h : pullImage wt unmarshal auth image w = (o, w1)) :
    w1.calls = w.calls ++ [Call.ImagePull image { All := true, RegistryAuth := auth }] := by
  unfold pullImage at h
  split at h
  · rename_i he
    cases h
    simpa using imagePull_calls _ _ _ _ _ _ he
  · rename_i he
    rw [pullLoop_calls _ _ _ _ _ _ _ h]
    simpa using imagePull_calls _ _ _ _ _ _ he

theorem getContainerImageName_calls (wt : watchtower σ C H N) (name : Bytes)
    (container : Container) (w w1 : World σ C H N)
    (o : Outcome (String × String × Option Bytes))
    (h : getContainerImageName wt name container w = (o, w1)) :
    w1.calls = w.calls ∨ w1.calls = w.calls ++ [Call.ImageInspectWithRaw container.Image] := by
  unfold getContainerImageName at h
  simp only at h
  split at h
  · split at h
    · rename_i he
      right
      split at h <;> (cases h; exact imageInspect_calls _ _ _ _ _ he)
    · rename_i he
      right
      cases h
      exact imageInspect_calls _ _ _ _ _ he
  · cases h
    left; rfl

theorem rebuildContainer_calls (wt : watchtower σ C H N) (containerID : String)
    (w w1 : World σ C H N) (o : Outcome (Option Bytes))
    (h : rebuildContainer wt containerID w = (o, w1)) :
    ∃ extra, w1.calls = w.calls ++ extra ∧ ∀ c ∈ extra, Call.isRecreate c = true := by
  unfold rebuildContainer at h
  split at h
  · rename_i he
    cases h
    exact ⟨_, containerInspect_calls _ _ _ _ _ he, by simp [Call.isRecreate]⟩
  · rename_i h1
    have e1 := containerInspect_calls _ _ _ _ _ h1
    split at h
    · cases h
      exact ⟨_, e1, by simp [Call.isRecreate]⟩
    · split at h
      · rename_i h2
        have e2 := containerRemove_calls _ _ _ _ _ _ h2
        rw [e1, List.append_assoc] at e2
        split at h <;> (cases h; exact ⟨_, e2, by simp [Call.isRecreate]⟩)
      · rename_i h2
        have e2 := containerRemove_calls _ _ _ _ _ _ h2
        rw [e1, List.append_assoc] at e2
        split at h
        · cases h
          exact ⟨_, e2, by simp [Call.isRecreate]⟩
        · split at h
          · rename_i h3
            have e3 := containerCreate_calls _ _ _ _ _ _ _ _ h3
            rw [e2, List.append_assoc] at e3
            cases h
            exact ⟨_, e3, by simp [Call.isRecreate]⟩
          · rename_i h3
            have e3 := containerCreate_calls _ _ _ _ _ _ _ _ h3
            rw [e2, List.append_assoc] at e3
            split at h
            · rename_i h4
              have e4 := containerStart_calls _ _ _ _ _ h4
              rw [e3, List.append_assoc] at e4
              cases h
              exact ⟨_, e4, by simp [Call.isRecreate]⟩
            · rename_i h4
              have e4 := containerStart_calls _ _ _ _ _ h4
              rw [e3, List.append_assoc] at e4
              split at h <;> (cases h; exact ⟨_, e4, by simp [Call.isRecreate]⟩)

/-! ## The update cache and the pulls -/

theorem pulls_same_of_recreate (image : String) (calls extra : List (Call C H N))
    (h : ∀ c ∈ extra, Call.isRecreate c = true) : pulls image (calls ++ extra) = pulls image calls := by
  rw [pulls_append]
  have : pulls image extra = 0 := by
    unfold pulls
    rw [List.countP_eq_zero]
    intro c hc
    have := h c hc
    cases c <;> simp_all [Call.isRecreate, Call.isPull]
  omega

theorem pulls_imageInspect (image i : String) (calls : List (Call C H N)) :
    pulls image (calls ++ [Call.ImageInspectWithRaw i]) = pulls image calls := by
  simp [pulls_append, pulls, Call.isPull]

theorem pulls_imagePull (image i : String) (options : ImagePullOptions) (calls : List (Call C H N)) :
    pulls image (calls ++ [Call.ImagePull i options]) =
      pulls image calls + (if i = image then 1 else 0) := by
  by_cases h : i = image <;> simp [pulls_append, pulls, Call.isPull, h]

theorem getContainerImageName_pulls (wt : watchtower σ C H N) (name : Bytes)
    (container : Container) (w w1 : World σ C H N)
    (o : Outcome (String × String × Option Bytes))
    (h : getContainerImageName wt name container w = (o, w1)) (image : String) :
    pulls image w1.calls = pulls image w.calls := by
  rcases getContainerImageName_calls wt name container w w1 o h with e | e
  · rw [e]
  · rw [e, pulls_imageInspect]

theorem resolveImage_canonical (name : Bytes) (image registry image1 registry1 : String)
    (h : resolveImage name image registry = (image1, registry1, none)) : Canonical image1 := by
  unfold resolveImage at h
  split at h
  · simp at h
  · rename_i hp
    split at h
    · rename_i hc
      simp only [Prod.mk.injEq] at h
      obtain ⟨rfl, -, -⟩ := h
      exact ⟨by rw [count_library, hc], hasPrefix_library _⟩
    · rename_i hc
      simp only [Prod.mk.injEq] at h
      obtain ⟨rfl, -, -⟩ := h
      exact ⟨by rw [count_dockerio, hc], hasPrefix_dockerio _⟩
    · rename_i hc
      simp only [Prod.mk.injEq] at h
      obtain ⟨rfl, -, -⟩ := h
      exact ⟨hc, by simpa using hp⟩
    · simp at h

theorem resolveImage_not_canonical (name : Bytes) (image registry image1 registry1 : String)
    (err : Bytes)
    (h : resolveImage name image registry = (image1, registry1, some err)) : ¬ Canonical image1 := by
  unfold resolveImage at h
  split at h
  · rename_i hp
    simp only [Prod.mk.injEq] at h
    obtain ⟨rfl, -, -⟩ := h
    intro hc
    rw [hc.2] at hp
    exact absurd hp (by decide)
  · split at h
    · simp at h
    · simp at h
    · simp at h
    · rename_i h0 h1 h2
      simp only [Prod.mk.injEq] at h
      obtain ⟨rfl, -, -⟩ := h
      intro hc
      exact h2 hc.1

theorem getContainerImageName_canonical (wt : watchtower σ C H N) (name : Bytes)
    (container : Container) (w w1 : World σ C H N) (image registry : String)
    (h : getContainerImageName wt name container w = (Outcome.ret (image, registry, none), w1)) :
    Canonical image := by
  unfold getContainerImageName at h
  simp only at h
  split at h
  · split at h
    · split at h <;> simp at h
    · simp only [Prod.mk.injEq, Outcome.ret.injEq] at h
      exact resolveImage_canonical _ _ _ _ _ h.1
  · simp only [Prod.mk.injEq, Outcome.ret.injEq] at h
    exact resolveImage_canonical _ _ _ _ _ h.1

theorem getContainerImageName_not_canonical (wt : watchtower σ C H N) (name : Bytes)
    (container : Container) (w w1 : World σ C H N) (image registry : String) (err : Bytes)
    (h : getContainerImageName wt name container w =
      (Outcome.ret (image, registry, some err), w1)) :
    ¬ Canonical image := by
  unfold getContainerImageName at h
  simp only at h
  split at h
  · rename_i hp
    split at h
    · split at h
      · simp at h
      · simp only [Prod.mk.injEq, Outcome.ret.injEq] at h
        obtain ⟨⟨rfl, -, -⟩, -⟩ := h
        intro hc
        rw [hc.2] at hp
        exact absurd hp (by decide)
    · simp only [Prod.mk.injEq, Outcome.ret.injEq] at h
      exact resolveImage_not_canonical _ _ _ _ _ _ h.1
  · simp only [Prod.mk.injEq, Outcome.ret.injEq] at h
    exact resolveImage_not_canonical _ _ _ _ _ _ h.1

theorem lookup_mapSet (imagesUpdated : List (String × Bool)) (image image1 : String) (value : Bool) :
    (mapSet imagesUpdated image value).lookup image1 =
      if image1 = image then some value else imagesUpdated.lookup image1 := by
  unfold mapSet
  by_cases h : image1 = image
  · subst h; simp [List.lookup]
  · have : (image1 == image) = false := by simpa using h
    simp [List.lookup, this, h]

theorem CacheInv.same {imagesUpdated : List (String × Bool)} {calls calls1 : List (Call C H N)}
    (hinv : CacheInv imagesUpdated calls)
    (h : ∀ image, pulls image calls1 = pulls image calls) : CacheInv imagesUpdated calls1 :=
  ⟨fun image => by rw [h]; exact hinv.atMost image,
   fun image hp => hinv.cached image (by rw [← h]; exact hp),
   fun image hc hl => by rw [h]; exact hinv.pulled image hc hl⟩

theorem CacheInv.set_unresolved {imagesUpdated : List (String × Bool)} {calls : List (Call C H N)}
    (hinv : CacheInv imagesUpdated calls) (image : String) (value : Bool)
    (hn : ¬ Canonical image) : CacheInv (mapSet imagesUpdated image value) calls := by
  refine ⟨hinv.atMost, ?_, ?_⟩
  · intro image1 hp
    rw [lookup_mapSet]
    split
    · simp
    · exact hinv.cached image1 hp
  · intro image1 hc hl
    rw [lookup_mapSet] at hl
    split at hl
    · rename_i e
      subst e
      exact absurd hc hn
    · exact hinv.pulled image1 hc hl

theorem cache_after_pull {imagesUpdated : List (String × Bool)} {calls calls1 : List (Call C H N)}
    (hinv : CacheInv imagesUpdated calls) (image : String)
    (hl : imagesUpdated.lookup image = none)
    (hK : ∀ image1, pulls image1 calls1 = pulls image1 calls + (if image = image1 then 1 else 0)) :
    (∀ image1, pulls image1 calls ≤ pulls image1 calls1) ∧ (∀ image1, pulls image1 calls1 ≤ 1) ∧
      pulls image calls1 = 1 ∧ ∀ value, CacheInv (mapSet imagesUpdated image value) calls1 := by
  have h0 : pulls image calls = 0 := by
    have h1 := hinv.atMost image
    have h2 := hinv.cached image
    by_contra hne
    exact h2 (by omega) hl
  have hle : ∀ image1, pulls image1 calls1 ≤ 1 := by
    intro image1
    rw [hK]
    split
    · rename_i e
      subst e
      omega
    · have := hinv.atMost image1
      omega
  refine ⟨fun image1 => by rw [hK]; omega, hle, by rw [hK, h0]; simp, ?_⟩
  intro value
  refine ⟨hle, ?_, ?_⟩
  · intro image1 hp
    rw [lookup_mapSet]
    split
    · simp
    · rename_i hne
      rw [hK] at hp
      have : ¬ image = image1 := fun e => hne e.symm
      simp only [this, if_false, Nat.add_zero] at hp
      exact hinv.cached image1 hp
  · intro image1 hc hl1
    rw [lookup_mapSet] at hl1
    split at hl1
    · rename_i e
      subst e
      rw [hK, h0]; simp
    · rename_i hne
      rw [hK]
      have : ¬ image = image1 := fun e => hne e.symm
      simp only [this, if_false, Nat.add_zero]
      exact hinv.pulled image1 hc hl1

theorem bailOrContinue_eq (exitOnError : Bool) (imagesUpdated : List (String × Bool))
    (w w1 : World σ C H N) (o : Outcome (List (String × Bool)))
    (h : bailOrContinue exitOnError imagesUpdated w = (o, w1)) :
    w1 = w ∧ ∀ m, o = Outcome.ret m → m = imagesUpdated := by
  unfold bailOrContinue at h
  split at h
  · cases h
    exact ⟨rfl, fun m hm => by cases hm⟩
  · cases h
    exact ⟨rfl, fun m hm => by cases hm; rfl⟩

/-- What `checkImage` does to the pulls and to the cache. -/
theorem checkImage_pulls (wt : watchtower σ C H N) (unmarshal : Bytes → Except Bytes JSONObject)
    (exitOnError : Bool) (container : Container) (name : Bytes) (image registry : String)
    (imagesUpdated : List (String × Bool)) (w w1 : World σ C H N)
    (o : Outcome (List (String × Bool)))
    (hinv : CacheInv imagesUpdated w.calls) (hcan : Canonical image)
    (h : checkImage wt unmarshal exitOnError container name image registry imagesUpdated w = (o, w1)) :
    (∀ image1, pulls image1 w.calls ≤ pulls image1 w1.calls) ∧
      (∀ image1, pulls image1 w1.calls ≤ 1) ∧ pulls image w1.calls = 1 ∧
      ∀ m, o = Outcome.ret m → CacheInv m w1.calls := by
  unfold checkImage at h
  simp only at h
  split at h
  · rename_i wasUpdated hl
    have hp : pulls image w.calls = 1 := hinv.pulled image hcan (by rw [hl]; simp)
    split at h <;>
      (cases h
       exact ⟨fun _ => Nat.le_refl _, hinv.atMost, hp, fun m hm => by cases hm; exact hinv⟩)
  · rename_i hl
    have key : ∀ (o1 : Outcome (Option Bytes)) (w2 : World σ C H N),
        pullImage wt unmarshal ((wt.registryAuth.lookup registry).getD "") image w = (o1, w2) →
        ∀ calls1 : List (Call C H N), (∀ image1, pulls image1 calls1 = pulls image1 w2.calls) →
        (∀ image1, pulls image1 w.calls ≤ pulls image1 calls1) ∧ (∀ image1, pulls image1 calls1 ≤ 1) ∧
          pulls image calls1 = 1 ∧ ∀ value, CacheInv (mapSet imagesUpdated image value) calls1 := by
      intro o1 w2 hp calls1 hs
      apply cache_after_pull hinv image hl
      intro image1
      rw [hs, pullImage_calls _ _ _ _ _ _ _ hp, pulls_imagePull]
    split at h
    · rename_i hp
      cases h
      obtain ⟨a, b, c, -⟩ := key _ _ hp _ (fun _ => rfl)
      exact ⟨a, b, c, fun m hm => by cases hm⟩
    · rename_i hp
      cases h
      obtain ⟨a, b, c, -⟩ := key _ _ hp _ (fun _ => rfl)
      exact ⟨a, b, c, fun m hm => by cases hm⟩
    · rename_i hp
      obtain ⟨e, hm⟩ := bailOrContinue_eq _ _ _ _ _ h
      obtain ⟨a, b, c, d⟩ := key _ _ hp w1.calls (fun image1 => by rw [e, print_calls])
      exact ⟨a, b, c, fun m hm1 => by rw [hm m hm1]; exact d _⟩
    · rename_i hp
      split at h
      · rename_i hi
        obtain ⟨e, hm⟩ := bailOrContinue_eq _ _ _ _ _ h
        obtain ⟨a, b, c, d⟩ := key _ _ hp w1.calls (fun image1 => by
          rw [e, print_calls, imageInspect_calls _ _ _ _ _ hi, pulls_imageInspect])
        exact ⟨a, b, c, fun m hm1 => by rw [hm m hm1]; exact d _⟩
      · rename_i hi
        have hi2 := imageInspect_calls _ _ _ _ _ hi
        split at h
        · split at h
          · rename_i hr
            obtain ⟨extra, he, hx⟩ := rebuildContainer_calls _ _ _ _ _ hr
            simp only [Prod.mk.injEq] at h
            obtain ⟨ho, hw⟩ := h
            obtain ⟨a, b, c, -⟩ := key _ _ hp w1.calls (fun image1 => by
              rw [← hw, he, pulls_same_of_recreate _ _ _ hx, hi2, pulls_imageInspect])
            exact ⟨a, b, c, fun m hm => by rw [← ho] at hm; cases hm⟩
          · rename_i hr
            obtain ⟨extra, he, hx⟩ := rebuildContainer_calls _ _ _ _ _ hr
            simp only [Prod.mk.injEq] at h
            obtain ⟨ho, hw⟩ := h
            obtain ⟨a, b, c, -⟩ := key _ _ hp w1.calls (fun image1 => by
              rw [← hw, he, pulls_same_of_recreate _ _ _ hx, hi2, pulls_imageInspect])
            exact ⟨a, b, c, fun m hm => by rw [← ho] at hm; cases hm⟩
          · rename_i hr
            obtain ⟨extra, he, hx⟩ := rebuildContainer_calls _ _ _ _ _ hr
            obtain ⟨e, hm⟩ := bailOrContinue_eq _ _ _ _ _ h
            obtain ⟨a, b, c, d⟩ := key _ _ hp w1.calls (fun image1 => by
              rw [e, print_calls, he, pulls_same_of_recreate _ _ _ hx, hi2, pulls_imageInspect])
            exact ⟨a, b, c, fun m hm1 => by rw [hm m hm1]; exact d _⟩
          · rename_i hr
            obtain ⟨extra, he, hx⟩ := rebuildContainer_calls _ _ _ _ _ hr
            simp only [Prod.mk.injEq] at h
            obtain ⟨ho, hw⟩ := h
            obtain ⟨a, b, c, d⟩ := key _ _ hp w1.calls (fun image1 => by
              rw [← hw, he, pulls_same_of_recreate _ _ _ hx, hi2, pulls_imageInspect])
            exact ⟨a, b, c, fun m hm => by rw [← ho] at hm; cases hm; exact d _⟩
        · simp only [Prod.mk.injEq] at h
          obtain ⟨ho, hw⟩ := h
          obtain ⟨a, b, c, d⟩ := key _ _ hp w1.calls (fun image1 => by
            rw [← hw, print_calls, hi2, pulls_imageInspect])
          exact ⟨a, b, c, fun m hm => by rw [← ho] at hm; cases hm; exact d _⟩

/-- What one turn of the loop of `checkUpdates` does to the pulls and to the
cache. -/
theorem checkContainer_pulls (wt : watchtower σ C H N)
    (unmarshal : Bytes → Except Bytes JSONObject) (exitOnError : Bool) (container : Container)
    (imagesUpdated : List (String × Bool)) (w w1 : World σ C H N)
    (o : Outcome (List (String × Bool)))
    (hinv : CacheInv imagesUpdated w.calls)
    (h : checkContainer wt unmarshal exitOnError container imagesUpdated w = (o, w1)) :
    (∀ image, pulls image w.calls ≤ pulls image w1.calls) ∧
      (∀ image, pulls image w1.calls ≤ 1) ∧
      (∀ m, o = Outcome.ret m → CacheInv m w1.calls) ∧
      (∀ name image registry w2, eligible container = true → containerName container = some name →
        getContainerImageName wt name container w = (Outcome.ret (image, registry, none), w2) →
        pulls image w1.calls = 1) := by
  unfold checkContainer at h
  split at h
  · rename_i hel
    split at h
    · rename_i hn
      cases h
      exact ⟨fun _ => Nat.le_refl _, hinv.atMost, fun m hm => (by cases hm),
        fun name image registry w2 _ hn2 _ => by rw [hn] at hn2; cases hn2⟩
    · rename_i name hn
      have hname : ∀ name1, containerName container = some name1 → name1 = name := by
        intro name1 h1
        rw [hn] at h1
        cases h1; rfl
      split at h
      · rename_i hg
        have hs := getContainerImageName_pulls _ _ _ _ _ _ hg
        cases h
        refine ⟨fun i => by rw [hs], fun i => by rw [hs]; exact hinv.atMost i,
          fun m hm => (by cases hm), ?_⟩
        intro name1 image registry w2 _ hn2 hg2
        rw [hname _ hn2, hg] at hg2
        cases hg2
      · rename_i hg
        have hs := getContainerImageName_pulls _ _ _ _ _ _ hg
        cases h
        refine ⟨fun i => by rw [hs], fun i => by rw [hs]; exact hinv.atMost i,
          fun m hm => (by cases hm), ?_⟩
        intro name1 image registry w2 _ hn2 hg2
        rw [hname _ hn2, hg] at hg2
        cases hg2
      · rename_i hg
        have hs := getContainerImageName_pulls _ _ _ _ _ _ hg
        have hnc := getContainerImageName_not_canonical _ _ _ _ _ _ _ _ hg
        obtain ⟨e, hm⟩ := bailOrContinue_eq _ _ _ _ _ h
        subst e
        refine ⟨fun i => by rw [print_calls, hs], fun i => by rw [print_calls, hs]; exact hinv.atMost i,
          fun m hm1 => ?_, ?_⟩
        · rw [hm m hm1]
          exact (hinv.set_unresolved _ _ hnc).same (fun i => by rw [print_calls, hs])
        · intro name1 image registry w2 _ hn2 hg2
          rw [hname _ hn2, hg] at hg2
          cases hg2
      · rename_i hg
        have hs := getContainerImageName_pulls _ _ _ _ _ _ hg
        have hc := getContainerImageName_canonical _ _ _ _ _ _ _ hg
        obtain ⟨a, b, c, d⟩ := checkImage_pulls _ _ _ _ _ _ _ _ _ _ _ (hinv.same hs) hc h
        refine ⟨fun i => by rw [← hs]; exact a i, b, d, ?_⟩
        intro name1 image registry w2 _ hn2 hg2
        rw [hname _ hn2, hg] at hg2
        cases hg2
        exact c
  · rename_i hel
    cases h
    exact ⟨fun _ => Nat.le_refl _, hinv.atMost, fun m hm => (by cases hm; exact hinv),
      fun name image registry w2 hel2 _ _ => absurd hel2 hel⟩

theorem checkLoop_append (wt : watchtower σ C H N) (unmarshal : Bytes → Except Bytes JSONObject)
    (exitOnError : Bool) (before rest : List Container) (imagesUpdated m : List (String × Bool))
    (w w1 : World σ C H N)
    (h : checkLoop wt unmarshal exitOnError before imagesUpdated w = (Outcome.ret m, w1)) :
    checkLoop wt unmarshal exitOnError (before ++ rest) imagesUpdated w =
      checkLoop wt unmarshal exitOnError rest m w1 := by
  induction before generalizing imagesUpdated w with
  | nil =>
    unfold checkLoop at h
    cases h
    rfl
  | cons c cs ih =>
    rw [List.cons_append]
    simp only [checkLoop] at h ⊢
    split at h
    · exact ih _ _ h
    · rename_i hne hc
      cases h
      exact absurd rfl (hne _)

/-- The loop of `checkUpdates` keeps the invariant and never pulls an image a
second time. -/
theorem checkLoop_pulls (wt : watchtower σ C H N) (unmarshal : Bytes → Except Bytes JSONObject)
    (exitOnError : Bool) (containers : List Container) (imagesUpdated : List (String × Bool))
    (w w1 : World σ C H N) (o : Outcome (List (String × Bool)))
    (hinv : CacheInv imagesUpdated w.calls)
    (h : checkLoop wt unmarshal exitOnError containers imagesUpdated w = (o, w1)) :
    (∀ image, pulls image w.calls ≤ pulls image w1.calls) ∧
      (∀ image, pulls image w1.calls ≤ 1) ∧
      (∀ m, o = Outcome.ret m → CacheInv m w1.calls) := by
  induction containers generalizing imagesUpdated w with
  | nil =>
    unfold checkLoop at h
    cases h
    exact ⟨fun _ => Nat.le_refl _, hinv.atMost, fun m hm => by cases hm; exact hinv⟩
  | cons c cs ih =>
    unfold checkLoop at h
    split at h
    · rename_i hc
      obtain ⟨a, -, d, -⟩ := checkContainer_pulls _ _ _ _ _ _ _ _ hinv hc
      obtain ⟨a2, b2, d2⟩ := ih _ _ (d _ rfl) h
      exact ⟨fun i => Nat.le_trans (a i) (a2 i), b2, d2⟩
    · rename_i hc
      cases h
      obtain ⟨a, b, d, -⟩ := checkContainer_pulls _ _ _ _ _ _ _ _ hinv hc
      exact ⟨a, b, d⟩

theorem cacheInv_start (calls : List (Call C H N)) (h : ∀ image, pulls image calls = 0) :
    CacheInv ([] : List (String × Bool)) calls :=
  ⟨fun image => (by rw [h]; omega), fun image hp => (by rw [h] at hp; cases hp),
   fun image _ hl => absurd rfl hl⟩

theorem listContainers_pulls (wt : watchtower σ C H N) (s : σ) (w1 : World σ C H N)
    (r : Except Bytes (List Container))
    (h : listContainers wt (World.init s) = (r, w1)) (image : String) :
    pulls image w1.calls = 0 := by
  cases h
  rfl

/-- C2, as amended: one `checkUpdates` cycle with bail mode off pulls every image reference
at most once, whatever the daemon answers; and when the loop reaches an
eligible container whose image resolves to a reference, that reference is
pulled exactly once in the cycle, however many containers share it. -/
theorem checkUpdates_pulls_each_reference_once (wt : watchtower σ C H N)
    (unmarshal : Bytes → Except Bytes JSONObject) (s : σ) :
    (∀ image, pulls image (checkUpdates wt unmarshal false (World.init s)).2.calls ≤ 1) ∧
    (∀ containers w1 before container rest m w name image registry w2,
      listContainers wt (World.init s) = (Except.ok containers, w1) →
      containers = before ++ container :: rest →
      checkLoop wt unmarshal false before [] w1 = (Outcome.ret m, w) →
      eligible container = true →
      containerName container = some name →
      getContainerImageName wt name container w = (Outcome.ret (image, registry, none), w2) →
      pulls image (checkUpdates wt unmarshal false (World.init s)).2.calls = 1) := by
  constructor
  · intro image
    unfold checkUpdates
    split
    · rename_i hl
      rw [listContainers_pulls wt s _ _ hl]
      omega
    · rename_i hl
      have hinv := cacheInv_start _ (listContainers_pulls wt s _ _ hl)
      exact (checkLoop_pulls wt unmarshal false _ _ _ _ _ hinv rfl).2.1 image
  · intro containers w1 before container rest m w name image registry w2 hl hsplit hpre hel hname hres
    have hinv := cacheInv_start _ (listContainers_pulls wt s _ _ hl)
    have hinv1 := (checkLoop_pulls wt unmarshal false _ _ _ _ _ hinv hpre).2.2 m rfl
    unfold checkUpdates
    rw [hl]
    simp only
    rw [hsplit, checkLoop_append _ _ _ _ _ _ _ _ _ hpre]
    simp only [checkLoop]
    rcases hstep : checkContainer wt unmarshal false container m w with ⟨o, w3⟩
    obtain ⟨-, b, d, e⟩ := checkContainer_pulls _ _ _ _ _ _ _ _ hinv1 hstep
    have h1 := e name image registry w2 hel hname hres
    cases o with
    | ret m1 =>
      simp only
      obtain ⟨a2, b2, -⟩ := checkLoop_pulls wt unmarshal false rest m1 w3 _ _ (d m1 rfl) rfl
      have := a2 image
      have := b2 image
      omega
    | panic msg => exact h1
    | exit code => exact h1

/-- An instance of the second part of C2: both containers of `twoOfNginx`
resolve to `docker.io/library/nginx`, which is pulled once. -/
theorem checkUpdates_pulls_each_reference_once_witness :
    pulls "docker.io/library/nginx"
      (checkUpdates twoOfNginx.wt exampleUnmarshal false (World.init 0)).2.calls = 1 :=
  (checkUpdates_pulls_each_reference_once twoOfNginx.wt exampleUnmarshal 0).2
    _ _ [runningContainer "aaaaaaaaaaaa" "nginx"] (runningContainer "bbbbbbbbbbbb" "nginx") []
    _ _ (goBytes "/web") _ _ _ rfl rfl rfl rfl rfl rfl

/-! ## The loop body on one container -/

/-- C4: when the loop reaches an eligible container whose reference has no
cached result, the pull succeeds and the inspected image has the ID the
container was started from, the turn ends normally with the reference recorded
as not updated, and no call of a recreation (container inspect, remove, create,
start) is made. -/
theorem checkContainer_up_to_date (wt : watchtower σ C H N)
    (unmarshal : Bytes → Except Bytes JSONObject) (exitOnError : Bool) (container : Container)
    (imagesUpdated : List (String × Bool)) (w w1 w2 w3 : World σ C H N)
    (name : Bytes) (image registry : String) (imageDetails : ImageInspect)
    (hel : eligible container = true)
    (hname : containerName container = some name)
    (hres : getContainerImageName wt name container w = (Outcome.ret (image, registry, none), w1))
    (hmiss : imagesUpdated.lookup image = none)
    (hpull : pullImage wt unmarshal ((wt.registryAuth.lookup registry).getD "") image w1 =
      (Outcome.ret none, w2))
    (hinsp : w2.imageInspect wt.docker image = (Except.ok imageDetails, w3))
    (hsame : imageDetails.ID = container.ImageID) :
    checkContainer wt unmarshal exitOnError container imagesUpdated w =
        (Outcome.ret (mapSet imagesUpdated image false),
          w3.print (name ++ goBytes " is up-to-date\n")) ∧
      (mapSet imagesUpdated image false).lookup image = some false ∧
      ∃ extra, w3.calls = w.calls ++ extra ∧ ∀ c ∈ extra, Call.isRecreate c = false := by
  refine ⟨?_, by simp [lookup_mapSet], ?_⟩
  · unfold checkContainer
    rw [if_pos hel]
    simp only [hname, hres]
    unfold checkImage
    simp only [hmiss, hpull, hinsp, hsame, bne_self_eq_false, Bool.false_eq_true, if_false]
  · have e3 := imageInspect_calls _ _ _ _ _ hinsp
    have e2 := pullImage_calls _ _ _ _ _ _ _ hpull
    rcases getContainerImageName_calls _ _ _ _ _ _ hres with e1 | e1
    · exact ⟨_, by rw [e3, e2, e1, List.append_assoc], by simp [Call.isRecreate]⟩
    · exact ⟨_, by rw [e3, e2, e1, List.append_assoc, List.append_assoc],
        by simp [Call.isRecreate]⟩

/-- C5: a container that carries the label `com.docker.compose.config-hash`,
or whose state is not `running`, is passed over: the turn calls nothing, prints
nothing and leaves the cache as it was. -/
theorem checkContainer_skips (wt : watchtower σ C H N)
    (unmarshal : Bytes → Except Bytes JSONObject) (exitOnError : Bool) (container : Container)
    (imagesUpdated : List (String × Bool)) (w : World σ C H N)
    (h : (container.Labels.lookup "com.docker.compose.config-hash").isSome = true ∨
      container.State ≠ "running") :
    checkContainer wt unmarshal exitOnError container imagesUpdated w =
      (Outcome.ret imagesUpdated, w) := by
  have hel : eligible container = false := by
    unfold eligible
    rcases h with h | h
    · simp [h]
    · simp [h]
  unfold checkContainer
  simp [hel]

/-- An instance of C4: the container of `redisUpToDate`. -/
theorem checkContainer_up_to_date_witness :
    (checkContainer redisUpToDate.wt exampleUnmarshal false
        (runningContainer "dddddddddddd" "redis") [] (World.init 0)).1 =
      Outcome.ret [("docker.io/library/redis", false)] :=
  congrArg Prod.fst
    (checkContainer_up_to_date redisUpToDate.wt exampleUnmarshal false
      (runningContainer "dddddddddddd" "redis") [] (World.init 0) _ _ _ (goBytes "/web")
      "docker.io/library/redis" "hub.docker.com" { ID := "sha256:old", RepoTags := ["redis:latest"] }
      rfl rfl rfl rfl rfl rfl rfl).1

/-- An instance of C5: the compose-managed container. -/
theorem checkContainer_skips_witness :
    checkContainer twoOfNginx.wt exampleUnmarshal false composeContainer
        [("docker.io/library/nginx", true)] (World.init 0) =
      (Outcome.ret [("docker.io/library/nginx", true)], World.init 0) :=
  checkContainer_skips twoOfNginx.wt exampleUnmarshal false composeContainer _ _
    (Or.inl (by decide))

/-- C2 fails as stated: the daemon `quietFirst` lists a container of `quiet`
before two eligible containers that both resolve to
`docker.io/library/nginx`; the pull of `quiet` is accepted and yields an event
without `status`, on which `pullImage` panics (main.go, line 106), so the
cycle ends with no pull of `docker.io/library/nginx` at all. -/
theorem checkUpdates_panic_leaves_reference_unpulled :
    (listContainers quietFirst.wt (World.init 0)).1 =
        Except.ok [runningContainer "eeeeeeeeeeee" "quiet",
          runningContainer "aaaaaaaaaaaa" "nginx", runningContainer "bbbbbbbbbbbb" "nginx"] ∧
      eligible (runningContainer "aaaaaaaaaaaa" "nginx") = true ∧
      eligible (runningContainer "bbbbbbbbbbbb" "nginx") = true ∧
      (∀ w, (getContainerImageName quietFirst.wt (goBytes "/web")
          (runningContainer "aaaaaaaaaaaa" "nginx") w).1 =
        Outcome.ret ("docker.io/library/nginx", "hub.docker.com", none)) ∧
      (∀ w, (getContainerImageName quietFirst.wt (goBytes "/web")
          (runningContainer "bbbbbbbbbbbb" "nginx") w).1 =
        Outcome.ret ("docker.io/library/nginx", "hub.docker.com", none)) ∧
      (checkUpdates quietFirst.wt exampleUnmarshal false (World.init 0)).1 =
        Outcome.panic Panic.interfaceConversion ∧
      (checkUpdates quietFirst.wt exampleUnmarshal false (World.init 0)).2.calls =
        [Call.ContainerList,
         Call.ImagePull "docker.io/library/quiet" { All := true, RegistryAuth := "" }] ∧
      pulls "docker.io/library/nginx"
        (checkUpdates quietFirst.wt exampleUnmarshal false (World.init 0)).2.calls = 0 :=
  ⟨rfl, by decide, by decide, fun _ => rfl, fun _ => rfl, by decide, by decide, by decide⟩

/-! ## `rebuildContainer` -/

theorem length_goBytes (s : String) : (goBytes s).length = s.utf8ByteSize := by
  obtain ⟨l⟩ := s
  unfold goBytes
  induction l with
  | nil => rfl
  | cons c cs ih =>
    simp only [List.flatMap_cons, List.length_append, String.length_utf8EncodeChar] at ih ⊢
    rw [ih]
    simp [String.utf8ByteSize, String.utf8ByteSize.go, Nat.add_comm]

/-- The turn of `checkUpdates` computes the name of a container before it can
call `rebuildContainer` on its ID, so every ID passed has at least 6 bytes. -/
theorem containerName_bytes (container : Container) (name : Bytes)
    (h : containerName container = some name) : 6 ≤ container.ID.utf8ByteSize := by
  unfold containerName sliceFixed at h
  by_contra hlt
  simp [hlt] at h

/-- C6, as amended: when the inspect succeeds with an answer that carries the
base description and the network settings, and remove, create and start
succeed, `rebuildContainer` makes exactly these four calls in this order: the
inspect, a remove of the inspected container with force and remove-volumes set
and remove-links unset, a create with the configuration, host configuration,
network endpoints and name of the inspect, and a start of the created ID; and
it returns no error when the container ID and the created ID have at least 6
bytes. -/
theorem rebuildContainer_recreates (wt : watchtower σ C H N) (containerID : String)
    (w w1 w2 w3 w4 : World σ C H N) (container : ContainerJSON C H N)
    (base : ContainerJSONBase H) (networkSettings : NetworkSettings N) (resID : String)
    (h1 : w.containerInspect wt.docker containerID = (Except.ok container, w1))
    (hbase : container.ContainerJSONBase = some base)
    (hnet : container.NetworkSettings = some networkSettings)
    (h2 : w1.containerRemove wt.docker base.ID
      { Force := true, RemoveVolumes := true, RemoveLinks := false } = (none, w2))
    (h3 : w2.containerCreate wt.docker container.Config base.HostConfig
      networkSettings.Networks base.Name = (Except.ok resID, w3))
    (h4 : w3.containerStart wt.docker resID = (none, w4)) :
    (rebuildContainer wt containerID w).2.calls = w.calls ++
        [Call.ContainerInspect containerID,
         Call.ContainerRemove base.ID
           { Force := true, RemoveVolumes := true, RemoveLinks := false },
         Call.ContainerCreate container.Config base.HostConfig networkSettings.Networks
           base.Name,
         Call.ContainerStart resID] ∧
      (6 ≤ containerID.utf8ByteSize → 6 ≤ resID.utf8ByteSize →
        (rebuildContainer wt containerID w).1 = Outcome.ret none) := by
  have e1 := containerInspect_calls _ _ _ _ _ h1
  have e2 := containerRemove_calls _ _ _ _ _ _ h2
  have e3 := containerCreate_calls _ _ _ _ _ _ _ _ h3
  have e4 := containerStart_calls _ _ _ _ _ h4
  have e : w4.calls = w.calls ++
        [Call.ContainerInspect containerID,
         Call.ContainerRemove base.ID
           { Force := true, RemoveVolumes := true, RemoveLinks := false },
         Call.ContainerCreate container.Config base.HostConfig networkSettings.Networks
           base.Name,
         Call.ContainerStart resID] := by
    rw [e4, e3, e2, e1]; simp
  unfold rebuildContainer
  simp only [h1, hbase, hnet, h2, h3, h4]
  constructor
  · split <;> exact e
  · intro ha hb
    simp [sliceFixed, ha, hb]

/-- An instance of C6 as amended: the first container of `twoOfNginx`. -/
theorem rebuildContainer_recreates_witness :
    (rebuildContainer twoOfNginx.wt "aaaaaaaaaaaa" (World.init 0)).2.calls =
        [Call.ContainerInspect "aaaaaaaaaaaa",
         Call.ContainerRemove "aaaaaaaaaaaa" removeOptions,
         Call.ContainerCreate "cfg" "host" "nets" "/web",
         Call.ContainerStart "cccccccccccc"] ∧
      (rebuildContainer twoOfNginx.wt "aaaaaaaaaaaa" (World.init 0)).1 = Outcome.ret none :=
  have h := rebuildContainer_recreates twoOfNginx.wt "aaaaaaaaaaaa" (World.init 0) _ _ _ _
    (fullDescription "aaaaaaaaaaaa")
    { ID := "aaaaaaaaaaaa", Name := "/web", Image := "nginx", HostConfig := "host" }
    { Networks := "nets" } "cccccccccccc" rfl rfl rfl rfl rfl rfl
  ⟨h.1, h.2 (by decide) (by decide)⟩

/-- C6 fails as stated, for a container ID that `checkUpdates` passes. On the
daemon `noNetworkSettings` inspect and remove succeed, create and start would
succeed, yet `rebuildContainer` panics on `container.NetworkSettings.Networks`
after the remove and issues no create. On the daemon `noBase` it panics on
`container.ID` before the remove. On the daemon `shortNewID` all four steps
succeed and `rebuildContainer` panics on `res.ID[:6]` instead of returning. -/
theorem rebuildContainer_panics_after_success :
    rebuildContainer noBase.wt "aaaaaaaaaaaa" (World.init 0) =
      (Outcome.panic Panic.nilPointer,
        { st := 1, calls := [Call.ContainerInspect "aaaaaaaaaaaa"], out := [] }) ∧
    rebuildContainer noNetworkSettings.wt "aaaaaaaaaaaa" (World.init 0) =
      (Outcome.panic Panic.nilPointer,
        { st := 2,
          calls := [Call.ContainerInspect "aaaaaaaaaaaa",
                    Call.ContainerRemove "aaaaaaaaaaaa" removeOptions],
          out := [] }) ∧
      (∀ s, (noNetworkSettings.docker.ContainerCreate "cfg" "host" "nets" "/web" s).1 =
        Except.ok "cccccccccccc") ∧
      (∀ s, (noNetworkSettings.docker.ContainerStart "cccccccccccc" s).1 = none) ∧
      rebuildContainer shortNewID.wt "aaaaaaaaaaaa" (World.init 0) =
      (Outcome.panic Panic.sliceBounds,
        { st := 4,
          calls := [Call.ContainerInspect "aaaaaaaaaaaa",
                    Call.ContainerRemove "aaaaaaaaaaaa" removeOptions,
                    Call.ContainerCreate "cfg" "host" "nets" "/web",
                    Call.ContainerStart "abc"],
          out := [] }) :=
  ⟨by decide, by decide, fun _ => rfl, fun _ => rfl, by decide⟩

/-- C7, as amended: `rebuildContainer` stops at the first step that fails and
makes no later call. A failed inspect, create or start returns the error of the
client unchanged; a failed remove returns that error behind the words
`Failed to remove` and the first 6 bytes of the container ID, when the ID has
that many. The remove is reached when the inspect answer carries the base
description, the create when it also carries the network settings. -/
theorem rebuildContainer_stops_at_first_failure (wt : watchtower σ C H N)
    (containerID : String) (w : World σ C H N) :
    (∀ err w1, w.containerInspect wt.docker containerID = (Except.error err, w1) →
      rebuildContainer wt containerID w = (Outcome.ret (some err), w1) ∧
      w1.calls = w.calls ++ [Call.ContainerInspect containerID]) ∧
    (∀ container base w1 err w2,
      w.containerInspect wt.docker containerID = (Except.ok container, w1) →
      container.ContainerJSONBase = some base →
      w1.containerRemove wt.docker base.ID
        { Force := true, RemoveVolumes := true, RemoveLinks := false } = (some err, w2) →
      (rebuildContainer wt containerID w).2 = w2 ∧
      w2.calls = w.calls ++ [Call.ContainerInspect containerID,
        Call.ContainerRemove base.ID
          { Force := true, RemoveVolumes := true, RemoveLinks := false }] ∧
      (6 ≤ containerID.utf8ByteSize →
        (rebuildContainer wt containerID w).1 =
          Outcome.ret (some (goBytes "Failed to remove " ++ (goBytes containerID).take 6
            ++ goBytes "\n\t" ++ err)))) ∧
    (∀ container base networkSettings w1 w2 err w3,
      w.containerInspect wt.docker containerID = (Except.ok container, w1) →
      container.ContainerJSONBase = some base →
      container.NetworkSettings = some networkSettings →
      w1.containerRemove wt.docker base.ID
        { Force := true, RemoveVolumes := true, RemoveLinks := false } = (none, w2) →
      w2.containerCreate wt.docker container.Config base.HostConfig networkSettings.Networks
        base.Name = (Except.error err, w3) →
      rebuildContainer wt containerID w = (Outcome.ret (some err), w3) ∧
      w3.calls = w.calls ++ [Call.ContainerInspect containerID,
        Call.ContainerRemove base.ID
          { Force := true, RemoveVolumes := true, RemoveLinks := false },
        Call.ContainerCreate container.Config base.HostConfig networkSettings.Networks
          base.Name]) ∧
    (∀ container base networkSettings w1 w2 resID w3 err w4,
      w.containerInspect wt.docker containerID = (Except.ok container, w1) →
      container.ContainerJSONBase = some base →
      container.NetworkSettings = some networkSettings →
      w1.containerRemove wt.docker base.ID
        { Force := true, RemoveVolumes := true, RemoveLinks := false } = (none, w2) →
      w2.containerCreate wt.docker container.Config base.HostConfig networkSettings.Networks
        base.Name = (Except.ok resID, w3) →
      w3.containerStart wt.docker resID = (some err, w4) →
      rebuildContainer wt containerID w = (Outcome.ret (some err), w4) ∧
      w4.calls = w.calls ++ [Call.ContainerInspect containerID,
        Call.ContainerRemove base.ID
          { Force := true, RemoveVolumes := true, RemoveLinks := false },
        Call.ContainerCreate container.Config base.HostConfig networkSettings.Networks
          base.Name,
        Call.ContainerStart resID]) := by
  refine ⟨?_, ?_, ?_, ?_⟩
  · intro err w1 h1
    exact ⟨by unfold rebuildContainer; simp only [h1], containerInspect_calls _ _ _ _ _ h1⟩
  · intro container base w1 err w2 h1 hbase h2
    have e1 := containerInspect_calls _ _ _ _ _ h1
    have e2 := containerRemove_calls _ _ _ _ _ _ h2
    refine ⟨?_, by rw [e2, e1]; simp, ?_⟩
    · unfold rebuildContainer
      simp only [h1, hbase, h2]
      split <;> rfl
    · intro hlen
      unfold rebuildContainer
      simp [h1, hbase, h2, sliceFixed, hlen]
  · intro container base networkSettings w1 w2 err w3 h1 hbase hnet h2 h3
    have e1 := containerInspect_calls _ _ _ _ _ h1
    have e2 := containerRemove_calls _ _ _ _ _ _ h2
    have e3 := containerCreate_calls _ _ _ _ _ _ _ _ h3
    exact ⟨by unfold rebuildContainer; simp only [h1, hbase, hnet, h2, h3],
      by rw [e3, e2, e1]; simp⟩
  · intro container base networkSettings w1 w2 resID w3 err w4 h1 hbase hnet h2 h3 h4
    have e1 := containerInspect_calls _ _ _ _ _ h1
    have e2 := containerRemove_calls _ _ _ _ _ _ h2
    have e3 := containerCreate_calls _ _ _ _ _ _ _ _ h3
    have e4 := containerStart_calls _ _ _ _ _ h4
    exact ⟨by unfold rebuildContainer; simp only [h1, hbase, hnet, h2, h3, h4],
      by rw [e4, e3, e2, e1]; simp⟩

/-- An instance of C7 as amended: the create fails, no start is issued. -/
theorem rebuildContainer_stops_at_first_failure_witness :
    (rebuildContainer (recreateFails 3).wt "aaaaaaaaaaaa" (World.init 0)).1 =
        Outcome.ret (some (goBytes "boom")) ∧
      (rebuildContainer (recreateFails 3).wt "aaaaaaaaaaaa" (World.init 0)).2.calls =
        [Call.ContainerInspect "aaaaaaaaaaaa", Call.ContainerRemove "aaaaaaaaaaaa" removeOptions,
         Call.ContainerCreate "cfg" "host" "nets" "/web"] :=
  have h := (rebuildContainer_stops_at_first_failure (recreateFails 3).wt "aaaaaaaaaaaa"
    (World.init 0)).2.2.1 (fullDescription "aaaaaaaaaaaa")
    { ID := "aaaaaaaaaaaa", Name := "/web", Image := "nginx", HostConfig := "host" }
    { Networks := "nets" } _ _ (goBytes "boom") _ rfl rfl rfl rfl rfl
  ⟨congrArg Prod.fst h.1, (congrArg (fun p => p.2.calls) h.1).trans h.2⟩

/-- C7 fails as stated: a failed create and a failed start return the very same
error, the message of the client, which names no step. -/
theorem rebuildContainer_error_names_no_step :
    (rebuildContainer (recreateFails 3).wt "aaaaaaaaaaaa" (World.init 0)).1 =
        Outcome.ret (some (goBytes "boom")) ∧
      (rebuildContainer (recreateFails 3).wt "aaaaaaaaaaaa" (World.init 0)).2.calls.getLast? =
        some (Call.ContainerCreate "cfg" "host" "nets" "/web") ∧
      (rebuildContainer (recreateFails 4).wt "aaaaaaaaaaaa" (World.init 0)).1 =
        Outcome.ret (some (goBytes "boom")) ∧
      (rebuildContainer (recreateFails 4).wt "aaaaaaaaaaaa" (World.init 0)).2.calls.getLast? =
        some (Call.ContainerStart "cccccccccccc") := by
  decide

/-! ## Digest-form image fields -/

theorem foldl_tagImage (tags : List String) (h : tags ≠ []) (image : String) :
    tags.foldl (fun _ tag => tagImage tag) image = tagImage (tags.getLast h) := by
  induction tags generalizing image with
  | nil => exact absurd rfl h
  | cons t ts ih =>
    cases ts with
    | nil => rfl
    | cons t2 ts2 =>
      rw [List.foldl_cons, ih (List.cons_ne_nil _ _)]
      rfl

theorem dropWhile_append_of_all (p : Char → Bool) (xs ys : List Char)
    (h : ∀ x ∈ xs, p x = true) : (xs ++ ys).dropWhile p = ys.dropWhile p := by
  induction xs with
  | nil => rfl
  | cons x xs ih =>
    rw [List.cons_append, List.dropWhile_cons_of_pos (h x (List.mem_cons_self _ _))]
    exact ih (fun y hy => h y (List.mem_cons_of_mem _ hy))

theorem dropWhile_append_of_exists (p : Char → Bool) (xs ys : List Char)
    (h : ∃ x ∈ xs, p x = false) :
    (xs ++ ys).dropWhile p = xs.dropWhile p ++ ys ∧ xs.dropWhile p ≠ [] := by
  induction xs with
  | nil =>
    obtain ⟨x, hx, -⟩ := h
    cases hx
  | cons x xs ih =>
    cases hp : p x with
    | false =>
      rw [List.cons_append, List.dropWhile_cons_of_neg (by simp [hp]),
        List.dropWhile_cons_of_neg (by simp [hp])]
      exact ⟨rfl, List.cons_ne_nil _ _⟩
    | true =>
      rw [List.cons_append, List.dropWhile_cons_of_pos hp, List.dropWhile_cons_of_pos hp]
      apply ih
      obtain ⟨y, hy, hpy⟩ := h
      rcases List.mem_cons.1 hy with e | e
      · rw [e, hp] at hpy
        cases hpy
      · exact ⟨y, e, hpy⟩

theorem takeWhile_eq_strip (l : List Char) (hm : ':' ∈ l) (hc : l.count ':' ≤ 1) :
    l.takeWhile (fun c => decide (c ≠ ':')) =
      ((l.reverse.dropWhile (fun c => decide (c ≠ ':'))).drop 1).reverse := by
  induction l with
  | nil => cases hm
  | cons c cs ih =>
    by_cases hcol : c = ':'
    · subst hcol
      have hcs : ':' ∉ cs := by
        intro hin
        have := List.count_pos_iff.2 hin
        simp only [List.count_cons_self] at hc
        omega
      rw [List.takeWhile_cons_of_neg (by simp), List.reverse_cons,
        dropWhile_append_of_all _ _ _ (fun x hx => by
          have hx2 : x ∈ cs := List.mem_reverse.1 hx
          have : x ≠ ':' := fun e => hcs (e ▸ hx2)
          simpa using this)]
      rfl
    · have hin : ':' ∈ cs := by
        rcases List.mem_cons.1 hm with e | e
        · exact absurd e.symm hcol
        · exact e
      have hc2 : cs.count ':' ≤ 1 := by
        have := List.count_le_count_cons (a := ':') (b := c) (l := cs)
        omega
      obtain ⟨e1, e2⟩ := dropWhile_append_of_exists (fun c => decide (c ≠ ':')) cs.reverse [c]
        ⟨':', List.mem_reverse.2 hin, by simp⟩
      rw [List.takeWhile_cons_of_pos (by simpa using hcol), ih hin hc2, List.reverse_cons, e1]
      cases hd : cs.reverse.dropWhile (fun c => decide (c ≠ ':')) with
      | nil => exact absurd hd e2
      | cons d ds => simp

/-- For a tag with at most one `:`, cutting at the first `:` removes the
trailing tag suffix. -/
theorem textBefore_eq_stripTagSuffix (tag : String) (h : strings.Count tag ':' ≤ 1) :
    textBefore ':' tag = stripTagSuffix tag := by
  unfold textBefore stripTagSuffix
  by_cases hm : ':' ∈ tag.data
  · rw [if_pos hm, takeWhile_eq_strip _ hm h]
  · rw [if_neg hm, takeWhile_of_not_mem _ _ hm]

/-- C8, as amended: for a raw image field that begins with `sha256:`, when the
image inspect succeeds with a non-empty list of repo tags whose last entry has
at most one `:`, `getContainerImageName` replaces the raw field with that last
entry without its trailing tag suffix; that name never begins with `sha256:`,
and the result is the resolution of that name by its number of slashes. -/
theorem getContainerImageName_digest_with_tags (wt : watchtower σ C H N) (name : Bytes)
    (container : Container) (w w1 : World σ C H N) (imageDetails : ImageInspect)
    (hraw : strings.HasPrefix container.Image "sha256:" = true)
    (hinsp : w.imageInspect wt.docker container.Image = (Except.ok imageDetails, w1))
    (htags : imageDetails.RepoTags ≠ [])
    (hcolon : strings.Count (imageDetails.RepoTags.getLast htags) ':' ≤ 1) :
    strings.HasPrefix (stripTagSuffix (imageDetails.RepoTags.getLast htags)) "sha256:" = false ∧
      getContainerImageName wt name container w =
        getContainerImageName wt name
          { container with Image := stripTagSuffix (imageDetails.RepoTags.getLast htags) } w1 := by
  rw [← textBefore_eq_stripTagSuffix _ hcolon]
  have hp := hasPrefix_textBefore_colon (imageDetails.RepoTags.getLast htags)
  refine ⟨hp, ?_⟩
  unfold getContainerImageName
  simp only [hraw, hinsp, hp, if_true]
  rw [foldl_tagImage _ htags, tagImage_eq]
  simp

/-- An instance of C8 as amended: the tags `a:1` and `b:2` give the name
`b`. -/
theorem getContainerImageName_digest_with_tags_witness :
    getContainerImageName twoTags.wt (goBytes "/web")
        (runningContainer "aaaaaaaaaaaa" digestImage) (World.init 0) =
      getContainerImageName twoTags.wt (goBytes "/web") (runningContainer "aaaaaaaaaaaa" "b")
        { st := 1, calls := [Call.ImageInspectWithRaw digestImage], out := [] } :=
  (getContainerImageName_digest_with_tags twoTags.wt (goBytes "/web")
    (runningContainer "aaaaaaaaaaaa" digestImage) (World.init 0) _
    { ID := "sha256:new", RepoTags := ["a:1", "b:2"] }
    (by decide) rfl (by decide) (by decide)).2

/-- C8 fails as stated: with the tags `a:1` and `b:2` the first tag without
its tag suffix is `a`, but the reference returned is `docker.io/library/b`,
the resolution of the last tag, not the resolution of `a`. -/
theorem getContainerImageName_takes_last_tag :
    firstTagName ["a:1", "b:2"] = some "a" ∧
      (getContainerImageName twoTags.wt (goBytes "/web")
        (runningContainer "aaaaaaaaaaaa" digestImage) (World.init 0)).1 =
        Outcome.ret ("docker.io/library/b", "hub.docker.com", none) ∧
      (getContainerImageName twoTags.wt (goBytes "/web") (runningContainer "aaaaaaaaaaaa" "a")
        (World.init 0)).1 = Outcome.ret ("docker.io/library/a", "hub.docker.com", none) ∧
      (getContainerImageName twoTags.wt (goBytes "/web")
        (runningContainer "aaaaaaaaaaaa" digestImage) (World.init 0)).1 ≠
      (getContainerImageName twoTags.wt (goBytes "/web") (runningContainer "aaaaaaaaaaaa" "a")
        (World.init 0)).1 := by
  decide

/-- C9, as amended: for a raw image field that begins with `sha256:`,
`getContainerImageName` returns an error, the raw field and the default
registry name when the image inspect succeeds with no repo tag, and also when
the image inspect fails and the raw field has at least 13 bytes. -/
theorem getContainerImageName_digest_unresolved (wt : watchtower σ C H N) (name : Bytes)
    (container : Container) (w : World σ C H N)
    (hraw : strings.HasPrefix container.Image "sha256:" = true) :
    (∀ err w1, w.imageInspect wt.docker container.Image = (Except.error err, w1) →
      13 ≤ container.Image.utf8ByteSize →
      getContainerImageName wt name container w =
        (Outcome.ret (container.Image, "hub.docker.com",
          some (goBytes "Failed to inspect image " ++ (goBytes container.Image).take 13
            ++ goBytes "\n\t" ++ err)), w1)) ∧
    (∀ imageDetails w1,
      w.imageInspect wt.docker container.Image = (Except.ok imageDetails, w1) →
      imageDetails.RepoTags = [] →
      getContainerImageName wt name container w =
        (Outcome.ret (container.Image, "hub.docker.com",
          some (goBytes "Failed to resolve image for container: " ++ name)), w1)) := by
  constructor
  · intro err w1 hinsp hlen
    unfold getContainerImageName
    simp [hraw, hinsp, sliceFixed, hlen]
  · intro imageDetails w1 hinsp htags
    unfold getContainerImageName
    simp [hraw, hinsp, htags, resolveImage]

/-- An instance of C9 as amended: the daemon does not know the image. -/
theorem getContainerImageName_digest_unresolved_witness :
    getContainerImageName noImage.wt (goBytes "/web")
        (runningContainer "aaaaaaaaaaaa" digestImage) (World.init 0) =
      (Outcome.ret (digestImage, "hub.docker.com",
        some (goBytes "Failed to inspect image " ++ (goBytes digestImage).take 13
          ++ goBytes "\n\t" ++ goBytes "No such image")),
        { st := 1, calls := [Call.ImageInspectWithRaw digestImage], out := [] }) :=
  (getContainerImageName_digest_unresolved noImage.wt (goBytes "/web")
    (runningContainer "aaaaaaaaaaaa" digestImage) (World.init 0) (by decide)).1
    (goBytes "No such image") _ rfl (by decide)

/-- C9 fails as stated: for the raw image field `sha256:abc` and a failing
image inspect, `getContainerImageName` panics on `image[:7+6]` and returns
nothing. -/
theorem getContainerImageName_short_digest_panics :
    strings.HasPrefix "sha256:abc" "sha256:" = true ∧
      (World.init 0).imageInspect noImage.wt.docker "sha256:abc" =
        (Except.error (goBytes "No such image"),
          { st := 1, calls := [Call.ImageInspectWithRaw "sha256:abc"], out := [] }) ∧
      (getContainerImageName noImage.wt (goBytes "/web")
        (runningContainer "aaaaaaaaaaaa" "sha256:abc") (World.init 0)).1 =
        Outcome.panic Panic.sliceBounds :=
  ⟨by decide, rfl, by decide⟩
/-! ## Image fields that are not digests -/

/-- C3: for a raw image field that does not begin with `sha256:`,
`getContainerImageName` calls nothing and is determined by the number of
slashes: none gives `docker.io/library/` followed by the raw field, one gives
`docker.io/` followed by the raw field, two give the raw field unchanged with
the text before its first slash as the registry, three or more give an
error. -/
theorem getContainerImageName_by_separators (wt : watchtower σ C H N) (name : Bytes)
    (container : Container) (w : World σ C H N)
    (hraw : strings.HasPrefix container.Image "sha256:" = false) :
    (strings.Count container.Image '/' = 0 →
      getContainerImageName wt name container w =
        (Outcome.ret ("docker.io/library/" ++ container.Image, "hub.docker.com", none), w)) ∧
    (strings.Count container.Image '/' = 1 →
      getContainerImageName wt name container w =
        (Outcome.ret ("docker.io/" ++ container.Image, "hub.docker.com", none), w)) ∧
    (strings.Count container.Image '/' = 2 →
      getContainerImageName wt name container w =
        (Outcome.ret (container.Image, textBefore '/' container.Image, none), w)) ∧
    (3 ≤ strings.Count container.Image '/' →
      ∃ image registry err, getContainerImageName wt name container w =
        (Outcome.ret (image, registry, some err), w)) := by
  refine ⟨?_, ?_, ?_, ?_⟩
  · intro h
    simp [getContainerImageName, resolveImage, hraw, h]
  · intro h
    simp [getContainerImageName, resolveImage, hraw, h]
  · intro h
    have hm : '/' ∈ container.Image.data := count_pos_mem _ _ (by omega)
    simp [getContainerImageName, resolveImage, hraw, h, sliceTo_index _ _ hm]
  · intro h
    obtain ⟨k, hk⟩ : ∃ k, strings.Count container.Image '/' = k + 3 := ⟨_, (Nat.sub_add_cancel h).symm⟩
    exact ⟨container.Image, "hub.docker.com",
      goBytes ("Unexpected number of slashes in: " ++ container.Image ++ "\n"), by
      simp [getContainerImageName, resolveImage, hraw, hk]⟩

/-- An instance of C3: `library/nginx` has one slash and `quay.io/coreos/etcd`
has two. -/
theorem getContainerImageName_by_separators_witness :
    getContainerImageName twoOfNginx.wt (goBytes "/web")
        (runningContainer "aaaaaaaaaaaa" "library/nginx")
        (World.init 0) =
        (Outcome.ret ("docker.io/library/nginx", "hub.docker.com", none), World.init 0) ∧
      getContainerImageName twoOfNginx.wt (goBytes "/web")
        (runningContainer "aaaaaaaaaaaa" "quay.io/coreos/etcd") (World.init 0) =
        (Outcome.ret ("quay.io/coreos/etcd", textBefore '/' "quay.io/coreos/etcd", none),
          World.init 0) :=
  ⟨(getContainerImageName_by_separators twoOfNginx.wt (goBytes "/web")
      (runningContainer "aaaaaaaaaaaa" "library/nginx") (World.init 0) (by decide)).2.1
      (by decide),
   (getContainerImageName_by_separators twoOfNginx.wt (goBytes "/web")
      (runningContainer "aaaaaaaaaaaa" "quay.io/coreos/etcd") (World.init 0) (by decide)).2.2.1
      (by decide)⟩

/-! ## The event stream of a pull -/

theorem pullEvent_progress (image : String) (data : JSONObject) (w : World σ C H N)
    (h : isProgressEvent data = true) : ∃ w1, pullEvent image data w = (none, w1) := by
  unfold isProgressEvent at h
  unfold pullEvent
  split at h
  · rename_i he hp
    simp only [he, hp]
    exact ⟨_, rfl⟩
  · rename_i he hp hs
    simp only [he, hp, hs]
    split <;> exact ⟨_, rfl⟩
  · cases h

theorem pullLoop_progress (unmarshal : Bytes → Except Bytes JSONObject) (image : String)
    (readErr : Option Bytes) (before rest : List Bytes) (w : World σ C H N)
    (h : ∀ line ∈ before, ∃ data, unmarshal line = Except.ok data ∧ isProgressEvent data = true) :
    ∃ w1, pullLoop unmarshal image readErr (before ++ rest) w =
      pullLoop unmarshal image readErr rest w1 := by
  induction before generalizing w with
  | nil => exact ⟨w, rfl⟩
  | cons line ls ih =>
    obtain ⟨data, hd, hp⟩ := h line (List.mem_cons_self _ _)
    obtain ⟨w1, hw1⟩ := pullEvent_progress image data w hp
    obtain ⟨w2, hw2⟩ := ih w1 (fun l hl => h l (List.mem_cons_of_mem _ hl))
    refine ⟨w2, ?_⟩
    rw [List.cons_append]
    simp only [pullLoop, hd, hw1]
    exact hw2

/-- C10, as amended: once the pull request is accepted, `pullImage` reduces the
lines of the stream as follows, where a progress event is a decoded line
without `error` field whose `progress` field is a string, or which has no
`progress` field and a string as `status`. It returns the message of the first
event whose `error` field is a string, and the decode error of the first line
that does not decode, when every earlier line is a progress event; it returns
no error when every line is a progress event and the stream ends with
end-of-input, whatever the `status` strings are. -/
theorem pullImage_reduces_stream (wt : watchtower σ C H N)
    (unmarshal : Bytes → Except Bytes JSONObject) (auth image : String)
    (w w1 : World σ C H N) (reader : PullStream)
    (hreq : pullRequest wt auth image w = (Except.ok reader, w1)) :
    (∀ before line rest data msg, reader.lines = before ++ line :: rest →
      (∀ l ∈ before, ∃ d, unmarshal l = Except.ok d ∧ isProgressEvent d = true) →
      unmarshal line = Except.ok data → data.lookup "error" = some (Value.str msg) →
      (pullImage wt unmarshal auth image w).1 = Outcome.ret (some (goBytes msg))) ∧
    (∀ before line rest err, reader.lines = before ++ line :: rest →
      (∀ l ∈ before, ∃ d, unmarshal l = Except.ok d ∧ isProgressEvent d = true) →
      unmarshal line = Except.error err →
      (pullImage wt unmarshal auth image w).1 = Outcome.ret (some err)) ∧
    ((∀ l ∈ reader.lines, ∃ d, unmarshal l = Except.ok d ∧ isProgressEvent d = true) →
      reader.readErr = none →
      (pullImage wt unmarshal auth image w).1 = Outcome.ret none) := by
  unfold pullImage
  simp only [hreq]
  refine ⟨?_, ?_, ?_⟩
  · intro before line rest data msg hl hb hd he
    obtain ⟨w2, hw2⟩ := pullLoop_progress unmarshal image reader.readErr before (line :: rest) w1 hb
    rw [hl, hw2]
    simp only [pullLoop, hd, pullEvent, he]
  · intro before line rest err hl hb hd
    obtain ⟨w2, hw2⟩ := pullLoop_progress unmarshal image reader.readErr before (line :: rest) w1 hb
    rw [hl, hw2]
    simp only [pullLoop, hd]
  · intro hb hr
    obtain ⟨w2, hw2⟩ := pullLoop_progress unmarshal image reader.readErr reader.lines [] w1 hb
    rw [List.append_nil] at hw2
    rw [hw2, hr]
    simp only [pullLoop]

/-- An instance of C10 as amended: a status event, then an event with an
error. -/
theorem pullImage_reduces_stream_witness :
    (pullImage failingPull.wt exampleUnmarshal "" "docker.io/library/nginx" (World.init 0)).1 =
      Outcome.ret (some (goBytes "manifest unknown")) :=
  (pullImage_reduces_stream failingPull.wt exampleUnmarshal "" "docker.io/library/nginx"
    (World.init 0) _
    { lines := [goBytes "\x7b\"status\":\"Pulling from library/nginx\",\"id\":\"latest\"\x7d",
                goBytes "\x7b\"error\":\"manifest unknown\"\x7d", goBytes "not json"],
      readErr := none } rfl).1
    [goBytes "\x7b\"status\":\"Pulling from library/nginx\",\"id\":\"latest\"\x7d"]
    (goBytes "\x7b\"error\":\"manifest unknown\"\x7d") [goBytes "not json"]
    [("error", Value.str "manifest unknown")] "manifest unknown" rfl
    (fun l hl => ⟨[("status", Value.str "Pulling from library/nginx"), ("id", Value.str "latest")],
      by rw [List.mem_singleton.1 hl]; exact ⟨rfl, rfl⟩⟩)
    rfl rfl

/-- C10 fails as stated: a stream whose only line decodes to an event without
`error`, `progress` and `status` makes `pullImage` panic instead of returning
success, and one whose only line decodes to an event with the number 404 as
`error` makes it panic instead of failing with a message. -/
theorem pullImage_panics_on_untyped_event :
    exampleUnmarshal (goBytes "\x7b\"id\":\"latest\"\x7d") =
        Except.ok [("id", Value.str "latest")] ∧
      (pullImage oddEvents.wt exampleUnmarshal "" "docker.io/library/quiet" (World.init 0)).1 =
        Outcome.panic Panic.interfaceConversion ∧
      exampleUnmarshal (goBytes "\x7b\"error\":404\x7d") =
        Except.ok [("error", Value.other "404")] ∧
      (pullImage oddEvents.wt exampleUnmarshal "" "docker.io/library/nginx" (World.init 0)).1 =
        Outcome.panic Panic.interfaceConversion :=
  ⟨rfl, by decide, rfl, by decide⟩

/-! ## A cached update -/

/-- C1 does not hold of the code: in the cycle over `twoOfNginx` both containers
resolve to `docker.io/library/nginx`, the pull for the first finds a new image
and the first is recreated; for the second the cached result is `true` and the
line `Restarting container` is logged, but no call is made for it. -/
theorem checkUpdates_cached_update_only_logs :
    checkUpdates twoOfNginx.wt exampleUnmarshal false (World.init 0) =
      (Outcome.ret [("docker.io/library/nginx", true)],
        { st := 7,
          calls := [Call.ContainerList,
            Call.ImagePull "docker.io/library/nginx" { All := true, RegistryAuth := "" },
            Call.ImageInspectWithRaw "docker.io/library/nginx",
            Call.ContainerInspect "aaaaaaaaaaaa",
            Call.ContainerRemove "aaaaaaaaaaaa" removeOptions,
            Call.ContainerCreate "cfg" "host" "nets" "/web",
            Call.ContainerStart "cccccccccccc"],
          out := [goBytes "Checking for updates ...",
            goBytes "Checking image: docker.io/library/nginx\n",
            goBytes ("\r" ++ eraseEndLine),
            goBytes "Restarted nginx container: aaaaaa as cccccc\n",
            goBytes "Restarting container: bbbbbbbbbbbb (docker.io/library/nginx)\n"] }) ∧
      Call.ContainerInspect "bbbbbbbbbbbb" ∉
        (checkUpdates twoOfNginx.wt exampleUnmarshal false (World.init 0)).2.calls := by
  decide


end Watchtower
